import Mathlib

/-!
# sllin: serial line LIN interface driver

A shallow embedding of the LIN master engine of `src/sllin/sllin.c`:
the identifier parity table, frame composition (`sllin_setup_msg`), the
receive path (`sllin_receive_buf`), the break and header transmission
(`sllin_send_tx_buff`, `sllin_send_break`) and the body of the worker thread
(`sllin_kwthread`).

Conventions of the embedding.
* C `int` fields are integers (`Int`). The addition whose operand is an
  unchecked argument, `rx_lim += len + 1`, is written with the wrap-around
  of 32-bit `int` arithmetic (`int_wrap`; the kernel is built with wrapping
  signed overflow); the other additions stay within the buffer length or
  add what the tty reports.  Conversions to `unsigned` types are written
  out as `% 2 ^ w`.
* Bytes (`unsigned char`) are natural numbers; a store of a wider value
  into a byte is written `% 256`.
* A function that may index an array outside its bounds returns an
  `Option`; `none` stands for such an access (undefined behaviour in C).
* The tty is an explicit value: a log of the calls made on it, and the
  results its successive `write` calls return.
-/

set_option linter.unusedVariables false

namespace Sllin

/-! ## Constants and the data model -/

def SLLIN_DATA_MAX : Nat := 8
def SLLIN_BUFF_LEN : Nat := 1 + 1 + 1 + SLLIN_DATA_MAX + 1
def SLLIN_BUFF_BREAK : Nat := 0
def SLLIN_BUFF_SYNC : Nat := 1
def SLLIN_BUFF_ID : Nat := 2
def SLLIN_BUFF_DATA : Nat := 3

/-- The value of a 32-bit `int` after an arithmetic operation whose exact
    result is `x`: reduced into `-2^31 .. 2^31 - 1` modulo `2^32`. -/
def int_wrap (x : Int) : Int := (x + 2 ^ 31) % 2 ^ 32 - 2 ^ 31

/-- The protocol states of `enum slstate`. -/
inductive slstate where
  | SLSTATE_IDLE
  | SLSTATE_BREAK_SENT
  | SLSTATE_ID_SENT
  | SLSTATE_RESPONSE_WAIT
  | SLSTATE_RESPONSE_SENT
  deriving DecidableEq, Repr

open slstate

def SLF_INUSE : Nat := 0
def SLF_ERROR : Nat := 1
def SLF_RXEVENT : Nat := 2
def SLF_TXEVENT : Nat := 3
def SLF_MSGEVENT : Nat := 4

/-- Kernel `set_bit` on a flag word. -/
def set_bit (nr : Nat) (flags : Nat) : Nat := flags ||| (1 <<< nr)

/-- Kernel `test_bit` on a flag word. -/
def test_bit (nr : Nat) (flags : Nat) : Bool := flags.testBit nr

/-- Kernel `clear_bit` on a flag word. -/
def clear_bit (nr : Nat) (flags : Nat) : Nat :=
  if flags.testBit nr then flags - (1 <<< nr) else flags

/-- A message buffer `unsigned char buf[SLLIN_BUFF_LEN]`: exactly twelve bytes. -/
abbrev Buff : Type := { l : List Nat // l.length = SLLIN_BUFF_LEN }

/-- The assignment `buf[i] = v` for an index inside the array. -/
def Buff.set (b : Buff) (i : Nat) (v : Nat) : Buff :=
  ⟨b.1.set i v, by rw [List.length_set]; exact b.2⟩

/-- The call `memcpy(buf + off, src, src.length)`, for a destination range
    inside the array (the callers check it). -/
def Buff.memcpy (b : Buff) (off : Nat) (src : List Nat) : Buff :=
  if h : off + src.length ≤ SLLIN_BUFF_LEN then
    ⟨b.1.take off ++ src ++ b.1.drop (off + src.length), by
      have hb := b.2
      simp only [List.length_append, List.length_take, List.length_drop, hb]
      omega⟩
  else b

/-- The bytes `buf[lo], ..., buf[hi - 1]`. -/
def Buff.slice (b : Buff) (lo hi : Nat) : List Nat := (b.1.drop lo).take (hi - lo)

/-- A buffer of twelve zero bytes. -/
def Buff.zero : Buff := ⟨List.replicate SLLIN_BUFF_LEN 0, by simp⟩

/-- One call made on the tty: a change of the line speed, or a `write` of
    `count` bytes, `buf` being the bytes of the message buffer the pointer
    and count designate. -/
inductive tty_op where
  | change_speed (speed : Int)
  | write (buf : List Nat) (count : Int)
  deriving DecidableEq, Repr

/-- The tty as the driver sees it. `write_ret k` is what the `k`-th call of
    `tty->ops->write` returns, `nwrites` counts the calls made so far,
    `ops_log` lists all calls in order, `do_write_wakeup` is the bit
    `TTY_DO_WRITE_WAKEUP` of `tty->flags`. -/
structure tty_struct where
  write_ret : Nat → Int
  nwrites : Nat
  ops_log : List tty_op
  do_write_wakeup : Bool

/-- The channel `struct sllin` (fields used by the LIN engine; `rx_errors`
    is `dev->stats.rx_errors`). -/
structure sllin where
  tty : tty_struct
  rx_buff : Buff
  tx_buff : Buff
  rx_expect : Int
  rx_lim : Int
  rx_cnt : Int
  tx_lim : Int
  tx_cnt : Int
  lin_master : Int
  lin_baud : Int
  lin_state : slstate
  id_to_send : Int
  flags : Nat
  rx_errors : Nat

/-- The table `sllin_id_parity_table[]`. -/
def sllin_id_parity_table : List Nat :=
  [0x80,0xc0,0x40,0x00,0xc0,0x80,0x00,0x40,
   0x00,0x40,0xc0,0x80,0x40,0x00,0x80,0xc0,
   0x40,0x00,0x80,0xc0,0x00,0x40,0xc0,0x80,
   0xc0,0x80,0x00,0x40,0x80,0xc0,0x40,0x00,
   0x00,0x40,0xc0,0x80,0x40,0x00,0x80,0xc0,
   0x80,0xc0,0x40,0x00,0xc0,0x80,0x00,0x40,
   0xc0,0x80,0x00,0x40,0x80,0xc0,0x40,0x00,
   0x40,0x00,0x80,0xc0,0x00,0x40,0xc0,0x80]

/-- The read `sllin_id_parity_table[id]` with a signed index; `none` when
    the index is outside the table. -/
def parity_lookup (id : Int) : Option Nat :=
  if 0 ≤ id then sllin_id_parity_table.get? id.toNat else none

/-! ## Frame composition -/

/-- One pass of the checksum loop body:
    `csum += tx_buff[i]; if (csum > 255) csum -= 255;`. -/
def csum_step (csum : Nat) (b : Nat) : Nat :=
  if csum + b > 255 then csum + b - 255 else csum + b

/-- The checksum loop of `sllin_setup_msg` run over the given bytes,
    starting from `csum = 0`. -/
def sllin_csum (bytes : List Nat) : Nat := bytes.foldl csum_step 0

/-- The payload block of `sllin_setup_msg` (taken when `data != NULL && len`):
    copies `len` bytes of `data` behind the header, runs the checksum loop
    over them and appends the checksum. `none` when `memcpy` or the checksum
    store leaves `data` or `tx_buff`. -/
def sllin_setup_payload (sl : sllin) (data : List Nat) (len : Int) : Option sllin :=
  if 0 ≤ len ∧ len.toNat ≤ data.length ∧ SLLIN_BUFF_DATA + len.toNat ≤ SLLIN_BUFF_LEN then
    let tx_lim := sl.tx_lim + len
    let tx_buff := sl.tx_buff.memcpy SLLIN_BUFF_DATA (data.take len.toNat)
    let csum := sllin_csum (tx_buff.slice SLLIN_BUFF_DATA tx_lim.toNat)
    if tx_lim.toNat < SLLIN_BUFF_LEN then
      some { sl with tx_buff := tx_buff.set tx_lim.toNat (csum % 256), tx_lim := tx_lim + 1 }
    else none
  else none

/-- The header part of `sllin_setup_msg`: the cursors are reset, then break
    placeholder, sync byte and protected identifier are stored; `par` is the
    value read from the parity table. -/
def sllin_setup_header (sl : sllin) (id : Int) (par : Nat) : sllin :=
  let sl := { sl with rx_cnt := 0, tx_cnt := 0, rx_expect := 0 }
  let tx := ((sl.tx_buff.set SLLIN_BUFF_BREAK 0).set SLLIN_BUFF_SYNC 0x55).set
    SLLIN_BUFF_ID ((id.toNat ||| par) % 256)
  { sl with tx_buff := tx, tx_lim := SLLIN_BUFF_DATA }

/-- The function `sllin_setup_msg(sl, mode, id, data, len)`; `data = none` is
    a NULL pointer. Returns the C return value and the channel afterwards. -/
def sllin_setup_msg (sl : sllin) (mode : Int) (id : Int) (data : Option (List Nat))
    (len : Int) : Option (Int × sllin) :=
  if id > 0x3f then some (-1, sl)
  else
    match parity_lookup id with
    | none => none
    | some par =>
      let sl := sllin_setup_header sl id par
      let filled : Option sllin :=
        match data with
        | some d => if len ≠ 0 then sllin_setup_payload sl d len else some sl
        | none => some sl
      match filled with
      | none => none
      | some sl =>
        if len ≠ 0 then some (0, { sl with rx_lim := int_wrap (sl.rx_lim + int_wrap (len + 1)) })
        else some (0, sl)

/-- A channel as `sllin_open` initialises it on a fresh (zeroed) device:
    cursors zero, 2400 baud, master, idle; `wr` gives the tty write results. -/
def sllin_fresh (wr : Nat → Int) : sllin :=
  { tty := { write_ret := wr, nwrites := 0, ops_log := [], do_write_wakeup := false }
    rx_buff := Buff.zero, tx_buff := Buff.zero
    rx_expect := 0, rx_lim := 0, rx_cnt := 0, tx_lim := 0, tx_cnt := 0
    lin_master := 1, lin_baud := 2400, lin_state := SLSTATE_IDLE
    id_to_send := 0, flags := set_bit SLF_INUSE 0, rx_errors := 0 }

/-! ## Receive path -/

/-- The store `sl->rx_buff[sl->rx_cnt++] = c` under the guard
    `sl->rx_cnt < SLLIN_BUFF_LEN`; a character arriving at a full buffer is
    skipped. `none` when the fill level is negative. -/
def sllin_receive_store (sl : sllin) (c : Nat) : Option sllin :=
  if sl.rx_cnt < SLLIN_BUFF_LEN then
    if 0 ≤ sl.rx_cnt then
      some { sl with rx_buff := sl.rx_buff.set sl.rx_cnt.toNat c, rx_cnt := sl.rx_cnt + 1 }
    else none
  else some sl

/-- The branch of the receive loop for a character whose marker is set:
    `test_and_set_bit(SLF_ERROR, ...)`, counting the first error. -/
def sllin_receive_marked (sl : sllin) : sllin :=
  if test_bit SLF_ERROR sl.flags then { sl with flags := set_bit SLF_ERROR sl.flags }
  else { sl with flags := set_bit SLF_ERROR sl.flags, rx_errors := sl.rx_errors + 1 }

/-- The loop `while (count--)` of `sllin_receive_buf` over the characters
    `cp` (their number is `count`) and the markers `fp` (`none` is a NULL
    pointer). `none` when the markers run out before the characters or the
    store leaves the buffer. -/
def sllin_receive_loop (sl : sllin) : List Nat → Option (List Nat) → Option sllin
  | [], _ => some sl
  | c :: cp, none =>
    match sllin_receive_store sl c with
    | none => none
    | some sl1 => sllin_receive_loop sl1 cp none
  | _ :: _, some [] => none
  | c :: cp, some (m :: fp) =>
    if m ≠ 0 then sllin_receive_loop (sllin_receive_marked sl) cp (some fp)
    else
      match sllin_receive_store sl c with
      | none => none
      | some sl1 => sllin_receive_loop sl1 cp (some fp)

/-- The function `sllin_receive_buf(tty, cp, fp, count)` with
    `count = cp.length`: the loop, then the wake-up of the worker thread when
    the expected number of characters is there. -/
def sllin_receive_buf (sl : sllin) (cp : List Nat) (fp : Option (List Nat)) : Option sllin :=
  match sllin_receive_loop sl cp fp with
  | none => none
  | some sl1 =>
    if sl1.rx_cnt ≥ sl1.rx_expect then some { sl1 with flags := set_bit SLF_RXEVENT sl1.flags }
    else some sl1

/-! ## Transmission -/

/-- The function `sltty_change_speed(tty, speed)`; its return value is always 0. -/
def sltty_change_speed (tty : tty_struct) (speed : Int) : tty_struct :=
  { tty with ops_log := tty.ops_log ++ [tty_op.change_speed speed] }

/-- The call `tty->ops->write(tty, buf, count)`: logs the call and returns
    the next write result. -/
def tty_write (tty : tty_struct) (buf : List Nat) (count : Int) : Int × tty_struct :=
  (tty.write_ret tty.nwrites,
   { tty with nwrites := tty.nwrites + 1, ops_log := tty.ops_log ++ [tty_op.write buf count] })

/-- The bytes that pointer `sl->tx_buff + sl->tx_cnt` and count `remains`
    designate inside `tx_buff` (none of them when the pointer lies before
    the buffer). -/
def tx_offered (sl : sllin) (remains : Int) : List Nat :=
  if 0 ≤ sl.tx_cnt then (sl.tx_buff.1.drop sl.tx_cnt.toNat).take remains.toNat else []

/-- The function `sllin_send_tx_buff(sl)`: C return value and channel afterwards. -/
def sllin_send_tx_buff (sl : sllin) : Int × sllin :=
  let remains : Int :=
    if sl.lin_state ≠ SLSTATE_BREAK_SENT then sl.tx_lim - sl.tx_cnt else 1
  let w1 := tty_write sl.tty (tx_offered sl remains) remains
  let sl := { sl with tty := w1.2 }
  if w1.1 < 0 then (-1, sl)
  else
    let remains := remains - w1.1
    let sl := { sl with tx_cnt := sl.tx_cnt + w1.1 }
    if remains > 0 then
      let sl := { sl with tty := { sl.tty with do_write_wakeup := true } }
      let w2 := tty_write sl.tty (tx_offered sl remains) remains
      let sl := { sl with tty := w2.2 }
      if w2.1 < 0 then
        (-1, { sl with tty := { sl.tty with do_write_wakeup := false } })
      else (0, { sl with tx_cnt := sl.tx_cnt + w2.1 })
    else (0, sl)

/-- The function `sllin_send_break(sl)`. `break_baud` is an `unsigned long`
    (64 bits) initialised from the `int` field, the speed argument an
    `unsigned` (32 bits). -/
def sllin_send_break (sl : sllin) : Int × sllin :=
  let break_baud : Int := sl.lin_baud % 2 ^ 64
  let break_baud := break_baud / 2
  let sl := { sl with tty := sltty_change_speed sl.tty (break_baud % 2 ^ 32) }
  let sl := { sl with rx_expect := SLLIN_BUFF_BREAK + 1 }
  let sl := { sl with lin_state := SLSTATE_BREAK_SENT }
  let r := sllin_send_tx_buff sl
  if r.1 < 0 then (r.1, { r.2 with lin_state := SLSTATE_IDLE })
  else (0, r.2)

/-! ## The worker thread -/

/-- The entry of `sllin_kwthread`, before the loop: the error bit is cleared,
    the nominal speed is set, a header-only frame for identifier 0x33 is
    composed and marked as pending. -/
def sllin_kwthread_init (sl : sllin) : Option sllin :=
  let sl := { sl with flags := clear_bit SLF_ERROR sl.flags }
  let sl := { sl with tty := sltty_change_speed sl.tty (sl.lin_baud % 2 ^ 32) }
  match sllin_setup_msg sl 0 0x33 none 0 with
  | none => none
  | some r => some { r.2 with id_to_send := 1 }

/-- The head of one pass of the `while` loop of `sllin_kwthread`, up to the
    wait: in state idle, a master with an identifier to send emits the break
    (the result of `sllin_send_break` is not used). -/
def sllin_kwthread_start (sl : sllin) : sllin :=
  if sl.lin_state = SLSTATE_IDLE ∧ sl.lin_master ≠ 0 ∧ sl.id_to_send ≠ 0 then
    (sllin_send_break sl).2
  else sl

/-- The rest of one pass of the loop of `sllin_kwthread`, after the wait
    returned: both event bits are cleared, then the `switch` on the state. -/
def sllin_kwthread_wake (sl : sllin) : sllin :=
  let sl := { sl with flags := clear_bit SLF_RXEVENT sl.flags }
  let sl := { sl with flags := clear_bit SLF_TXEVENT sl.flags }
  match sl.lin_state with
  | SLSTATE_BREAK_SENT =>
    if sl.rx_cnt ≤ SLLIN_BUFF_BREAK then sl
    else
      let sl := { sl with tty := sltty_change_speed sl.tty (sl.lin_baud % 2 ^ 32) }
      let r := sllin_send_tx_buff sl
      { r.2 with lin_state := SLSTATE_ID_SENT }
  | SLSTATE_ID_SENT => { sl with id_to_send := 0, lin_state := SLSTATE_IDLE }
  | _ => sl

/-- One pass of the loop of `sllin_kwthread`; `wait` is what the tty
    callbacks did to the channel while the thread slept in
    `wait_event_killable`. -/
def sllin_kwthread_pass (wait : sllin → sllin) (sl : sllin) : sllin :=
  sllin_kwthread_wake (wait (sllin_kwthread_start sl))

/-! ## The transmit-drain callback -/

/-- The tail of `sllin_write_wakeup`: `TTY_DO_WRITE_WAKEUP` is cleared,
    `SLF_TXEVENT` is set and the worker thread is woken. -/
def sllin_write_wakeup_done (sl : sllin) : sllin :=
  { sl with
    tty := { sl.tty with do_write_wakeup := false }
    flags := set_bit SLF_TXEVENT sl.flags }

/-- The pending count `remains` that `sllin_write_wakeup` computes. -/
def sllin_write_wakeup_remains (sl : sllin) : Int :=
  if sl.lin_state ≠ SLSTATE_BREAK_SENT then sl.tx_lim - sl.tx_cnt
  else SLLIN_BUFF_BREAK + 1 - sl.tx_cnt

/-- The function `sllin_write_wakeup(tty)`. The count handed to
    `tty->ops->write` is `sl->tx_cnt - sl->tx_lim`, as in the source. -/
def sllin_write_wakeup (sl : sllin) : sllin :=
  let remains := sllin_write_wakeup_remains sl
  if remains > 0 then
    let w := tty_write sl.tty (tx_offered sl (sl.tx_cnt - sl.tx_lim)) (sl.tx_cnt - sl.tx_lim)
    let sl := { sl with tty := w.2, tx_cnt := sl.tx_cnt + w.1 }
    if sl.tx_cnt < sl.tx_lim then sl
    else sllin_write_wakeup_done sl
  else sllin_write_wakeup_done sl

/-! ## The network side -/

/-- The network device of a channel as far as reception goes: the frames
    handed to the network layer (identifier and payload, oldest first) and
    the counter `stats.rx_packets`. -/
structure net_device where
  rx_frames : List (Int × List Nat)
  rx_packets : Nat
  deriving DecidableEq, Repr

/-- The function `sll_bump(sl)`: every statement of its body is commented
    out, so it returns without touching the channel or the device. -/
def sll_bump (sl : sllin) (dev : net_device) : sllin × net_device := (sl, dev)

/-- What can happen to a channel once its worker thread runs: the tty
    delivers characters, the tty reports room for more data, or the worker
    thread runs the head of a loop pass or the part after the wait. -/
inductive channel_event where
  | receive (cp : List Nat) (fp : Option (List Nat))
  | write_wakeup
  | thread_start
  | thread_wake

/-- The effect of one event on channel and device. No function of the
    engine calls `sll_bump` (the call in `sllin_kwthread` is commented out)
    or touches the device otherwise. `none` as in `sllin_receive_buf`. -/
def channel_step (c : sllin × net_device) : channel_event → Option (sllin × net_device)
  | channel_event.receive cp fp =>
    match sllin_receive_buf c.1 cp fp with
    | none => none
    | some sl => some (sl, c.2)
  | channel_event.write_wakeup => some (sllin_write_wakeup c.1, c.2)
  | channel_event.thread_start => some (sllin_kwthread_start c.1, c.2)
  | channel_event.thread_wake => some (sllin_kwthread_wake c.1, c.2)

/-- A sequence of events, one after the other. -/
def channel_run (c : sllin × net_device) : List channel_event → Option (sllin × net_device)
  | [] => some c
  | e :: es =>
    match channel_step c e with
    | none => none
    | some c1 => channel_run c1 es

/-! ## Specification-side definitions -/

/-- The standard LIN identifier parity, from the words of the specification:
    bit 6 is `id0 ^ id1 ^ id2 ^ id4`, bit 7 is `!(id1 ^ id3 ^ id4 ^ id5)`. -/
def lin_parity_spec (id : Nat) : Nat :=
  (if xor (xor (xor (id.testBit 0) (id.testBit 1)) (id.testBit 2)) (id.testBit 4)
    then 0x40 else 0) +
  (if !(xor (xor (xor (id.testBit 1) (id.testBit 3)) (id.testBit 4)) (id.testBit 5))
    then 0x80 else 0)

/-- The payload argument of `sllin_setup_msg` stays inside its arrays: no
    payload, or at most `SLLIN_DATA_MAX` bytes, all of them present in `data`. -/
def payload_in_bounds : Option (List Nat) → Int → Prop
  | none, _ => True
  | some d, len => len = 0 ∨ (0 < len ∧ len ≤ SLLIN_DATA_MAX ∧ len ≤ d.length)

/-- The bytes queued for transmission: `tx_buff[0], ..., tx_buff[tx_lim - 1]`. -/
def sllin_tx_frame (sl : sllin) : List Nat := sl.tx_buff.slice 0 sl.tx_lim.toNat

/-- Return value and queued bytes after a call of `sllin_setup_msg`. -/
def setup_tx_view (r : Option (Int × sllin)) : Option (Int × List Nat) :=
  r.map fun x => (x.1, sllin_tx_frame x.2)

/-- Return value, `rx_expect` and `rx_lim` after a call of `sllin_setup_msg`. -/
def setup_rx_view (r : Option (Int × sllin)) : Option (Int × Int × Int) :=
  r.map fun x => (x.1, x.2.rx_expect, x.2.rx_lim)

/-- A tty whose every `write` accepts one byte. -/
def tty_accepts_one : Nat → Int := fun _ => 1

/-- A tty whose every `write` fails. -/
def tty_fails : Nat → Int := fun _ => -1

/-- The characters received so far: `rx_buff[0], ..., rx_buff[rx_cnt - 1]`. -/
def rx_filled (sl : sllin) : List Nat := sl.rx_buff.1.take sl.rx_cnt.toNat

/-- No character of `cp` carries an error marker: the marker pointer is NULL,
    or there is one marker per character and all are zero (`TTY_NORMAL`). -/
def markers_clear (cp : List Nat) : Option (List Nat) → Prop
  | none => True
  | some fp => fp.length = cp.length ∧ ∀ m ∈ fp, m = 0

/-- Fill level, received characters, error bit and error counter after a
    call of `sllin_receive_buf`. -/
def receive_view (r : Option sllin) : Option (Int × List Nat × Bool × Nat) :=
  r.map fun s => (s.rx_cnt, rx_filled s, test_bit SLF_ERROR s.flags, s.rx_errors)

/-- A tty that accepts the break byte and fails on every later `write`. -/
def tty_fails_after_break : Nat → Int := fun k => if k = 0 then 1 else -1

/-- The channel of a worker thread that has started on a fresh channel,
    emitted the break, and slept until `sllin_receive_buf` delivered the
    echo of the break byte. -/
def break_echoed (wr : Nat → Int) : Option sllin :=
  match sllin_kwthread_init (sllin_fresh wr) with
  | none => none
  | some sl => sllin_receive_buf (sllin_kwthread_start sl) [0x00] none

/-- The calls made on the tty so far, the protocol state and the transmit
    cursors of a channel. -/
def tx_view (sl : sllin) : List tty_op × slstate × Int × Int :=
  (sl.tty.ops_log, sl.lin_state, sl.tx_cnt, sl.tx_lim)

/-- The channel carries a freshly composed frame: `tx_buff` and `tx_cnt` are
    as a successful call of `sllin_setup_msg` left them. -/
def freshly_composed (sl : sllin) : Prop :=
  ∃ (sl0 : sllin) (mode id : Int) (data : Option (List Nat)) (len : Int) (sl1 : sllin),
    sllin_setup_msg sl0 mode id data len = some (0, sl1) ∧
    sl.tx_buff = sl1.tx_buff ∧ sl.tx_cnt = sl1.tx_cnt

/-- The channel of a worker thread about to enter its loop on a fresh
    channel: the header-only frame for identifier 0x33 is composed and
    pending (the nominal speed change of the entry is left out). -/
def composed_0x33 : sllin :=
  match sllin_setup_msg (sllin_fresh tty_accepts_one) 0 0x33 none 0 with
  | some r => { r.2 with id_to_send := 1 }
  | none => sllin_fresh tty_accepts_one

/-- A tty that accepts one byte on each of its first two writes and nothing
    afterwards. -/
def tty_accepts_two : Nat → Int := fun k => if k < 2 then 1 else 0

/-- A device that has received nothing. -/
def dev_empty : net_device := { rx_frames := [], rx_packets := 0 }

/-- The channel of a master that has composed the header-only request for
    identifier 0x10 with four data bytes expected, and marked it pending. -/
def request_0x10 : Option sllin :=
  match sllin_setup_msg (sllin_fresh tty_accepts_one) 0 0x10 none 4 with
  | none => none
  | some r => some { r.2 with id_to_send := 1 }

/-- The request for identifier 0x10 run through the worker thread: break,
    echo of the break, header write, echo of the sync byte, return to idle,
    then the five response characters `resp` and one more wake. -/
def response_run (resp : List Nat) : Option (sllin × net_device) :=
  match request_0x10 with
  | none => none
  | some sl =>
    channel_run (sl, dev_empty)
      [channel_event.thread_start, channel_event.receive [0x00] none,
       channel_event.thread_wake,
       channel_event.thread_start, channel_event.receive [0x55] none,
       channel_event.thread_wake,
       channel_event.thread_start, channel_event.receive resp none,
       channel_event.thread_wake]

/-- State, received characters and delivered frames at the end of a run. -/
def run_view (r : Option (sllin × net_device)) :
    Option (slstate × List Nat × List (Int × List Nat)) :=
  r.map fun c => (c.1.lin_state, rx_filled c.1, c.2.rx_frames)

/-- The channel after the header write of the worker thread on a fresh
    channel: state ID_SENT, two of three frame bytes accepted by the tty. -/
def header_written (wr : Nat → Int) : Option sllin :=
  (break_echoed wr).map sllin_kwthread_wake

/-! ## Auxiliary lemmas -/

theorem parity_table_row (n : Fin 64) :
    sllin_id_parity_table.get? n.val = some (lin_parity_spec n.val) ∧
    (lin_parity_spec n.val).testBit 6 =
      xor (xor (xor (n.val.testBit 0) (n.val.testBit 1)) (n.val.testBit 2)) (n.val.testBit 4) ∧
    (lin_parity_spec n.val).testBit 7 =
      !(xor (xor (xor (n.val.testBit 1) (n.val.testBit 3)) (n.val.testBit 4)) (n.val.testBit 5)) ∧
    lin_parity_spec n.val &&& 0x3F = 0 ∧
    lin_parity_spec n.val ∈ [0x00, 0x40, 0x80, 0xC0] ∧
    (n.val ||| lin_parity_spec n.val) &&& 0x3F = n.val ∧
    n.val ||| lin_parity_spec n.val < 256 ∧
    lin_parity_spec n.val < 256 := by
  revert n
  decide

theorem parity_lookup_eq (id : Int) (h0 : 0 ≤ id) (h1 : id ≤ 0x3f) :
    parity_lookup id = some (lin_parity_spec id.toNat) := by
  have hn : id.toNat < 64 := by omega
  have := (parity_table_row ⟨id.toNat, hn⟩).1
  simp only [parity_lookup, h0, if_true]
  exact this

theorem parity_lookup_neg (id : Int) (h : id < 0) : parity_lookup id = none := by
  have : ¬ (0 ≤ id) := by omega
  simp [parity_lookup, this]

theorem setup_msg_reject (sl : sllin) (mode id : Int) (data : Option (List Nat)) (len : Int)
    (h : 0x3f < id) : sllin_setup_msg sl mode id data len = some (-1, sl) := by
  have h2 : id > 0x3f := h
  simp only [sllin_setup_msg, h2, if_true]

theorem setup_msg_accept (sl : sllin) (mode id : Int) (data : Option (List Nat)) (len : Int)
    (h0 : 0 ≤ id) (h1 : id ≤ 0x3f) :
    sllin_setup_msg sl mode id data len =
      match (match data with
        | some d =>
          if len ≠ 0 then
            sllin_setup_payload (sllin_setup_header sl id (lin_parity_spec id.toNat)) d len
          else some (sllin_setup_header sl id (lin_parity_spec id.toNat))
        | none => some (sllin_setup_header sl id (lin_parity_spec id.toNat))) with
      | none => none
      | some sl1 =>
        if len ≠ 0 then
          some (0, { sl1 with rx_lim := int_wrap (sl1.rx_lim + int_wrap (len + 1)) })
        else some (0, sl1) := by
  have h2 : ¬ (id > 0x3f) := by omega
  simp only [sllin_setup_msg, h2, if_false, parity_lookup_eq id h0 h1]

theorem setup_payload_eq (sl : sllin) (d : List Nat) (len : Int) (hlim : sl.tx_lim = 3)
    (h0 : 0 < len) (h8 : len ≤ SLLIN_DATA_MAX) (hd : len ≤ d.length) :
    sllin_setup_payload sl d len =
      some { sl with
        tx_buff := (sl.tx_buff.memcpy SLLIN_BUFF_DATA (d.take len.toNat)).set (3 + len.toNat)
          (sllin_csum ((sl.tx_buff.memcpy SLLIN_BUFF_DATA (d.take len.toNat)).slice
            SLLIN_BUFF_DATA (3 + len.toNat)) % 256)
        tx_lim := 3 + len + 1 } := by
  have h8n : len ≤ 8 := h8
  have e1 : (3 + len).toNat = 3 + len.toNat := by omega
  have c1 : 0 ≤ len ∧ len.toNat ≤ d.length ∧ SLLIN_BUFF_DATA + len.toNat ≤ SLLIN_BUFF_LEN := by
    refine ⟨by omega, by omega, ?_⟩
    simp only [SLLIN_BUFF_DATA, SLLIN_BUFF_LEN, SLLIN_DATA_MAX]
    omega
  have c2 : 3 + len.toNat < SLLIN_BUFF_LEN := by
    simp only [SLLIN_BUFF_LEN, SLLIN_DATA_MAX]
    omega
  simp only [sllin_setup_payload, c1, hlim, e1, c2, and_self, if_true]

theorem header_set_buf (b : Buff) (v : Nat) :
    (((b.set SLLIN_BUFF_BREAK 0).set SLLIN_BUFF_SYNC 0x55).set SLLIN_BUFF_ID v).1 =
      0 :: 0x55 :: v :: b.1.drop 3 := by
  obtain ⟨l, hl⟩ := b
  match l, hl with
  | a :: b :: c :: r, _ =>
    simp [Buff.set, SLLIN_BUFF_BREAK, SLLIN_BUFF_SYNC, SLLIN_BUFF_ID]

theorem setup_header_buf (sl : sllin) (id : Int) (par : Nat) :
    (sllin_setup_header sl id par).tx_buff.1 =
      0 :: 0x55 :: ((id.toNat ||| par) % 256) :: sl.tx_buff.1.drop 3 := by
  simp only [sllin_setup_header]
  exact header_set_buf sl.tx_buff _

theorem memcpy_buf (b : Buff) (h0 h1 h2 : Nat) (r src : List Nat)
    (hb : b.1 = h0 :: h1 :: h2 :: r) (hs : src.length ≤ 8) :
    (b.memcpy SLLIN_BUFF_DATA src).1 = [h0, h1, h2] ++ src ++ r.drop src.length := by
  have hlen : SLLIN_BUFF_DATA + src.length ≤ SLLIN_BUFF_LEN := by
    simp only [SLLIN_BUFF_DATA, SLLIN_BUFF_LEN, SLLIN_DATA_MAX]
    omega
  rw [Buff.memcpy, dif_pos hlen]
  simp only [hb, SLLIN_BUFF_DATA]
  have : 3 + src.length = src.length + 3 := by omega
  simp [this]

theorem frame_set (hd src tl : List Nat) (t c : Nat) :
    (hd ++ src ++ (t :: tl)).set (hd.length + src.length) c = hd ++ src ++ (c :: tl) := by
  rw [List.set_append_right _ _ (by simp)]
  simp

theorem frame_layout (b : Buff) (h0 h1 h2 : Nat) (r src : List Nat) (c : Nat)
    (hb : b.1 = h0 :: h1 :: h2 :: r) (hs : src.length ≤ 8) :
    (b.memcpy SLLIN_BUFF_DATA src).slice SLLIN_BUFF_DATA (3 + src.length) = src ∧
    ((b.memcpy SLLIN_BUFF_DATA src).set (3 + src.length) c).slice 0 (3 + src.length + 1) =
      [h0, h1, h2] ++ src ++ [c] ∧
    ((b.memcpy SLLIN_BUFF_DATA src).set (3 + src.length) c).slice 3 (3 + src.length) = src ∧
    ((b.memcpy SLLIN_BUFF_DATA src).set (3 + src.length) c).1.get? (3 + src.length) = some c := by
  have hr : r.length = 9 := by
    have := b.2
    rw [hb] at this
    simp only [List.length_cons, SLLIN_BUFF_LEN, SLLIN_DATA_MAX] at this
    omega
  have hm := memcpy_buf b h0 h1 h2 r src hb hs
  obtain ⟨t, tl, htl⟩ : ∃ t tl, r.drop src.length = t :: tl := by
    cases hdr : r.drop src.length with
    | nil =>
      have := congrArg List.length hdr
      simp only [List.length_drop, List.length_nil] at this
      omega
    | cons t tl => exact ⟨t, tl, rfl⟩
  have hset : ((b.memcpy SLLIN_BUFF_DATA src).set (3 + src.length) c).1 =
      [h0, h1, h2] ++ src ++ (c :: tl) := by
    simp only [Buff.set, hm, htl]
    exact frame_set [h0, h1, h2] src tl t c
  have h3 : ([h0, h1, h2] : List Nat).length = 3 := rfl
  have hsub : 3 + src.length - 3 = src.length := by omega
  refine ⟨?_, ?_, ?_, ?_⟩
  · rw [Buff.slice, hm, List.append_assoc]
    simp only [SLLIN_BUFF_DATA]
    rw [List.drop_left' h3, hsub, List.take_left]
  · have e : [h0, h1, h2] ++ src ++ c :: tl = ([h0, h1, h2] ++ src ++ [c]) ++ tl := by simp
    rw [Buff.slice, hset, e, List.drop_zero, Nat.sub_zero]
    exact List.take_left' (by simp; omega)
  · rw [Buff.slice, hset, List.append_assoc, List.drop_left' h3, hsub, List.take_left]
  · rw [List.get?_eq_getElem?, hset, List.getElem?_append_right (by simp; omega)]
    have : 3 + src.length - ([h0, h1, h2] ++ src).length = 0 := by
      simp only [List.length_append, h3]
      omega
    rw [this]
    simp

theorem csum_step_inv (c b : Nat) (hc : c ≤ 255) (hb : b < 256) :
    csum_step c b ≤ 255 ∧ csum_step c b % 255 = (c + b) % 255 ∧
      (csum_step c b = 0 ↔ c + b = 0) := by
  unfold csum_step
  split <;> omega

theorem foldl_csum_inv (bytes : List Nat) :
    ∀ (c s : Nat), (∀ b ∈ bytes, b < 256) → c ≤ 255 → c % 255 = s % 255 → (c = 0 ↔ s = 0) →
      bytes.foldl csum_step c ≤ 255 ∧
      bytes.foldl csum_step c % 255 = (s + bytes.sum) % 255 ∧
      (bytes.foldl csum_step c = 0 ↔ s + bytes.sum = 0) := by
  induction bytes with
  | nil => intro c s _ hc hm hz; simpa using ⟨hc, hm, hz⟩
  | cons b bs ih =>
    intro c s hb hc hm hz
    have hb0 : b < 256 := hb b (List.mem_cons_self _ _)
    have hbs : ∀ x ∈ bs, x < 256 := fun x hx => hb x (List.mem_cons_of_mem _ hx)
    obtain ⟨i1, i2, i3⟩ := csum_step_inv c b hc hb0
    have := ih (csum_step c b) (s + b) hbs i1 (by omega) (by omega)
    simpa [List.foldl_cons, List.sum_cons, Nat.add_assoc] using this

theorem sllin_csum_le (bytes : List Nat) (hb : ∀ b ∈ bytes, b < 256) :
    sllin_csum bytes ≤ 255 :=
  (foldl_csum_inv bytes 0 0 hb (by omega) rfl Iff.rfl).1

theorem sllin_csum_closed (bytes : List Nat) (hb : ∀ b ∈ bytes, b < 256) :
    sllin_csum bytes =
      if bytes.sum % 255 = 0 ∧ bytes.sum ≠ 0 then 255 else bytes.sum % 255 := by
  obtain ⟨i1, i2, i3⟩ := foldl_csum_inv bytes 0 0 hb (by omega) rfl Iff.rfl
  simp only [Nat.zero_add] at i2 i3
  unfold sllin_csum
  split <;> omega

/-- What `sllin_setup_msg` leaves behind for a valid identifier and a payload
    of one to eight bytes. -/
theorem setup_msg_payload_result (sl : sllin) (mode id : Int) (payload : List Nat)
    (h0 : 0 ≤ id) (h1 : id ≤ 0x3f) (hl1 : 1 ≤ payload.length) (hl8 : payload.length ≤ 8)
    (hb : ∀ b ∈ payload, b < 256) :
    ∃ sl1, sllin_setup_msg sl mode id (some payload) payload.length = some (0, sl1) ∧
      sl1.tx_cnt = 0 ∧ sl1.rx_cnt = 0 ∧ sl1.rx_expect = 0 ∧
      sl1.tx_lim = 3 + payload.length + 1 ∧
      sl1.rx_lim = int_wrap (sl.rx_lim + int_wrap (payload.length + 1)) ∧
      sllin_tx_frame sl1 =
        [0x00, 0x55, id.toNat ||| lin_parity_spec id.toNat] ++ payload ++ [sllin_csum payload] ∧
      sl1.tx_buff.slice 3 (3 + payload.length) = payload ∧
      sl1.tx_buff.1.get? (3 + payload.length) = some (sllin_csum payload) := by
  have hlen : ((payload.length : Nat) : Int) ≠ 0 := by omega
  have hn : ((payload.length : Nat) : Int).toNat = payload.length := Int.toNat_natCast _
  have hidb : (id.toNat ||| lin_parity_spec id.toNat) % 256 =
      id.toNat ||| lin_parity_spec id.toNat :=
    Nat.mod_eq_of_lt (parity_table_row ⟨id.toNat, by omega⟩).2.2.2.2.2.2.1
  have hbuf := setup_header_buf sl id (lin_parity_spec id.toNat)
  rw [hidb] at hbuf
  obtain ⟨f1, f2, f3, f4⟩ := frame_layout (sllin_setup_header sl id (lin_parity_spec id.toNat)).tx_buff
    _ _ _ _ payload (sllin_csum payload) hbuf hl8
  have hc : sllin_csum payload % 256 = sllin_csum payload :=
    Nat.mod_eq_of_lt (by have := sllin_csum_le payload hb; omega)
  have hp := setup_payload_eq (sllin_setup_header sl id (lin_parity_spec id.toNat)) payload
    payload.length rfl (by omega) (by simp only [SLLIN_DATA_MAX]; omega) (le_refl _)
  rw [hn, List.take_length, f1, hc] at hp
  rw [setup_msg_accept sl mode id _ _ h0 h1]
  simp only [hlen, ne_eq, not_false_eq_true, if_true, hp]
  refine ⟨_, rfl, rfl, rfl, rfl, rfl, rfl, ?_, f3, f4⟩
  have e : ((3 : Int) + (payload.length : Int) + 1).toNat = 3 + payload.length + 1 := by omega
  simp only [sllin_tx_frame, e]
  exact f2

theorem setup_fill_header (hdr : sllin) (data : Option (List Nat)) (len : Int) :
    data = none ∨ len = 0 →
    (match data with
      | some d => if len ≠ 0 then sllin_setup_payload hdr d len else some hdr
      | none => some hdr) = some hdr := by
  intro hd
  rcases hd with hd | hd
  · subst hd; rfl
  · subst hd; cases data <;> simp

/-- What `sllin_setup_msg` leaves behind for a valid identifier when no
    payload is copied (`data` is NULL or `len` is zero). -/
theorem setup_msg_header_result (sl : sllin) (mode id : Int) (data : Option (List Nat))
    (len : Int) (h0 : 0 ≤ id) (h1 : id ≤ 0x3f) (hd : data = none ∨ len = 0) :
    ∃ sl1, sllin_setup_msg sl mode id data len = some (0, sl1) ∧
      sl1.tx_cnt = 0 ∧ sl1.rx_cnt = 0 ∧ sl1.rx_expect = 0 ∧ sl1.tx_lim = 3 ∧
      sl1.rx_lim =
        (if len ≠ 0 then int_wrap (sl.rx_lim + int_wrap (len + 1)) else sl.rx_lim) ∧
      sllin_tx_frame sl1 = [0x00, 0x55, id.toNat ||| lin_parity_spec id.toNat] := by
  have hidb : (id.toNat ||| lin_parity_spec id.toNat) % 256 =
      id.toNat ||| lin_parity_spec id.toNat :=
    Nat.mod_eq_of_lt (parity_table_row ⟨id.toNat, by omega⟩).2.2.2.2.2.2.1
  have hbuf := setup_header_buf sl id (lin_parity_spec id.toNat)
  rw [hidb] at hbuf
  have hfr : ∀ r : Int, sllin_tx_frame
      { sllin_setup_header sl id (lin_parity_spec id.toNat) with rx_lim := r } =
      [0x00, 0x55, id.toNat ||| lin_parity_spec id.toNat] := by
    intro r
    simp only [sllin_tx_frame, Buff.slice, hbuf]
    rfl
  have hfr0 : sllin_tx_frame (sllin_setup_header sl id (lin_parity_spec id.toNat)) =
      [0x00, 0x55, id.toNat ||| lin_parity_spec id.toNat] := hfr _
  rw [setup_msg_accept sl mode id _ _ h0 h1]
  have hfill := setup_fill_header (sllin_setup_header sl id (lin_parity_spec id.toNat)) data len hd
  rw [hfill]
  by_cases hl : len = 0
  · subst hl
    exact ⟨_, by simp, rfl, rfl, rfl, rfl, by simp [sllin_setup_header], hfr0⟩
  · simp only [ne_eq, hl, not_false_eq_true, if_true]
    refine ⟨_, rfl, rfl, rfl, rfl, rfl, ?_, hfr _⟩
    simp [sllin_setup_header]

theorem setup_payload_keeps (sl sl1 : sllin) (d : List Nat) (len : Int)
    (h : sllin_setup_payload sl d len = some sl1) :
    sl1.rx_expect = sl.rx_expect ∧ sl1.rx_lim = sl.rx_lim ∧ sl1.rx_cnt = sl.rx_cnt ∧
      sl1.tx_cnt = sl.tx_cnt := by
  unfold sllin_setup_payload at h
  split at h
  · simp only at h
    split at h
    · cases h
      exact ⟨rfl, rfl, rfl, rfl⟩
    · cases h
  · cases h

/-- Every successful return of `sllin_setup_msg` went through the identifier
    check and an in-range table read, and leaves the counters as the code
    assigns them. -/
theorem setup_msg_success_inv (sl sl1 : sllin) (mode id : Int) (data : Option (List Nat))
    (len : Int) (h : sllin_setup_msg sl mode id data len = some (0, sl1)) :
    0 ≤ id ∧ id ≤ 0x3f ∧ sl1.rx_expect = 0 ∧ sl1.rx_cnt = 0 ∧ sl1.tx_cnt = 0 ∧
      sl1.rx_lim =
        (if len ≠ 0 then int_wrap (sl.rx_lim + int_wrap (len + 1)) else sl.rx_lim) := by
  by_cases hbig : 0x3f < id
  · rw [setup_msg_reject sl mode id data len hbig] at h
    cases h
  by_cases hneg : id < 0
  · have hb2 : ¬ (id > 0x3f) := hbig
    simp only [sllin_setup_msg, hb2, if_false, parity_lookup_neg id hneg] at h
    cases h
  have h0 : 0 ≤ id := by omega
  have h1 : id ≤ 0x3f := by omega
  rw [setup_msg_accept sl mode id data len h0 h1] at h
  refine ⟨h0, h1, ?_⟩
  have key : ∀ sl2, (match data with
        | some d =>
          if len ≠ 0 then
            sllin_setup_payload (sllin_setup_header sl id (lin_parity_spec id.toNat)) d len
          else some (sllin_setup_header sl id (lin_parity_spec id.toNat))
        | none => some (sllin_setup_header sl id (lin_parity_spec id.toNat))) = some sl2 →
      sl2.rx_expect = 0 ∧ sl2.rx_lim = sl.rx_lim ∧ sl2.rx_cnt = 0 ∧ sl2.tx_cnt = 0 := by
    intro sl2 h2
    cases data with
    | none => cases h2; exact ⟨rfl, rfl, rfl, rfl⟩
    | some d =>
      simp only at h2
      split at h2
      · obtain ⟨k1, k2, k3, k4⟩ := setup_payload_keeps _ _ _ _ h2
        exact ⟨k1, k2, k3, k4⟩
      · cases h2; exact ⟨rfl, rfl, rfl, rfl⟩
  split at h
  · cases h
  · rename_i sl2 hsl2
    obtain ⟨k1, k2, k3, k4⟩ := key sl2 hsl2
    split at h
    · cases h
      rename_i hl
      simp only [hl, ne_eq, not_false_eq_true, if_true]
      exact ⟨k1, k3, k4, by rw [k2]⟩
    · cases h
      rename_i hl
      simp only [hl, if_false]
      exact ⟨k1, k3, k4, k2⟩

/-! ### Receive path lemmas -/

theorem receive_store_room (sl : sllin) (c : Nat) (h0 : 0 ≤ sl.rx_cnt) (h1 : sl.rx_cnt < 12) :
    sllin_receive_store sl c =
      some { sl with rx_buff := sl.rx_buff.set sl.rx_cnt.toNat c, rx_cnt := sl.rx_cnt + 1 } := by
  have h2 : sl.rx_cnt < (SLLIN_BUFF_LEN : Int) := by
    simp only [SLLIN_BUFF_LEN, SLLIN_DATA_MAX]
    omega
  simp only [sllin_receive_store, h2, h0, if_true]

theorem receive_store_full (sl : sllin) (c : Nat) (h : 12 ≤ sl.rx_cnt) :
    sllin_receive_store sl c = some sl := by
  have h2 : ¬ (sl.rx_cnt < (SLLIN_BUFF_LEN : Int)) := by
    simp only [SLLIN_BUFF_LEN, SLLIN_DATA_MAX]
    omega
  simp only [sllin_receive_store, h2, if_false]

theorem take_succ_set (l : List Nat) (c : Nat) :
    ∀ k, k < l.length → (l.set k c).take (k + 1) = l.take k ++ [c] := by
  induction l with
  | nil => intro k h; simp at h
  | cons a l ih =>
    intro k h
    cases k with
    | zero => simp
    | succ k =>
      simp only [List.length_cons] at h
      simp only [List.set_cons_succ, List.take_succ_cons, List.cons_append, List.cons.injEq,
        true_and]
      exact ih k (by omega)

theorem rx_filled_store (sl : sllin) (c : Nat) (h0 : 0 ≤ sl.rx_cnt) (h1 : sl.rx_cnt < 12) :
    rx_filled { sl with rx_buff := sl.rx_buff.set sl.rx_cnt.toNat c, rx_cnt := sl.rx_cnt + 1 } =
      rx_filled sl ++ [c] := by
  have hlen : sl.rx_buff.1.length = 12 := sl.rx_buff.2
  have hk : sl.rx_cnt.toNat < sl.rx_buff.1.length := by omega
  have e : (sl.rx_cnt + 1).toNat = sl.rx_cnt.toNat + 1 := by omega
  simp only [rx_filled, Buff.set, e]
  exact take_succ_set _ c _ hk

theorem receive_loop_markers (cp : List Nat) :
    ∀ (sl : sllin) (fp : List Nat), fp.length = cp.length → (∀ m ∈ fp, m = 0) →
      sllin_receive_loop sl cp (some fp) = sllin_receive_loop sl cp none := by
  induction cp with
  | nil => intro sl fp _ _; rfl
  | cons c cp ih =>
    intro sl fp hl hz
    cases fp with
    | nil => simp at hl
    | cons m fp =>
      have hm : m = 0 := hz m (List.mem_cons_self _ _)
      subst hm
      have hl2 : fp.length = cp.length := by simpa using hl
      have hz2 : ∀ x ∈ fp, x = 0 := fun x hx => hz x (List.mem_cons_of_mem _ hx)
      simp only [sllin_receive_loop, ne_eq, not_true_eq_false, if_false]
      cases sllin_receive_store sl c with
      | none => rfl
      | some sl1 => exact ih sl1 fp hl2 hz2

theorem receive_loop_clear (cp : List Nat) (sl : sllin) (fp : Option (List Nat))
    (h : markers_clear cp fp) :
    sllin_receive_loop sl cp fp = sllin_receive_loop sl cp none := by
  cases fp with
  | none => rfl
  | some fp => exact receive_loop_markers cp sl fp h.1 h.2

theorem receive_loop_full (cp : List Nat) (sl : sllin) (h : 12 ≤ sl.rx_cnt) :
    sllin_receive_loop sl cp none = some sl := by
  induction cp with
  | nil => rfl
  | cons c cp ih =>
    simp only [sllin_receive_loop, receive_store_full sl c h]
    exact ih

/-- Unmarked characters fill the buffer in arrival order up to twelve; only
    `rx_buff` and `rx_cnt` change. -/
theorem receive_loop_unmarked (cp : List Nat) :
    ∀ (sl : sllin), 0 ≤ sl.rx_cnt → sl.rx_cnt ≤ 12 →
      ∃ sl1, sllin_receive_loop sl cp none = some sl1 ∧
        sl1.rx_cnt = min (sl.rx_cnt + cp.length) 12 ∧
        rx_filled sl1 = (rx_filled sl ++ cp).take 12 ∧
        { sl1 with rx_buff := sl.rx_buff, rx_cnt := sl.rx_cnt } = sl := by
  induction cp with
  | nil =>
    intro sl h0 h1
    refine ⟨sl, rfl, by simp; omega, ?_, rfl⟩
    have hlen : (rx_filled sl).length ≤ 12 := by
      simp only [rx_filled, List.length_take]
      omega
    simp [List.take_of_length_le hlen]
  | cons c cp ih =>
    intro sl h0 h1
    have hflen : (rx_filled sl).length = sl.rx_cnt.toNat := by
      have hlen : sl.rx_buff.1.length = 12 := sl.rx_buff.2
      simp only [rx_filled, List.length_take, hlen]
      omega
    by_cases hfull : sl.rx_cnt = 12
    · refine ⟨sl, receive_loop_full _ sl (by omega), ?_, ?_, rfl⟩
      · simp only [List.length_cons]
        omega
      · rw [List.take_append_of_le_length (by omega), List.take_of_length_le (by omega)]
    · have hlt : sl.rx_cnt < 12 := by omega
      obtain ⟨sl1, e, c1, c2, c3⟩ := ih
        { sl with rx_buff := sl.rx_buff.set sl.rx_cnt.toNat c, rx_cnt := sl.rx_cnt + 1 }
        (by simp only; omega) (by simp only; omega)
      refine ⟨sl1, ?_, ?_, ?_, ?_⟩
      · simp only [sllin_receive_loop, receive_store_room sl c h0 hlt]
        exact e
      · rw [c1]
        simp only [List.length_cons]
        push_cast
        omega
      · rw [c2, rx_filled_store sl c h0 hlt]
        simp
      · have := congrArg (fun s : sllin => { s with rx_buff := sl.rx_buff, rx_cnt := sl.rx_cnt }) c3
        exact this

theorem receive_loop_prefix (cp : List Nat) :
    ∀ (cp2 : List Nat) (sl : sllin), 0 ≤ sl.rx_cnt → sl.rx_cnt ≤ 12 →
      cp.take (12 - sl.rx_cnt.toNat) = cp2.take (12 - sl.rx_cnt.toNat) →
      sllin_receive_loop sl cp none = sllin_receive_loop sl cp2 none := by
  induction cp with
  | nil =>
    intro cp2 sl h0 h1 ht
    by_cases hfull : sl.rx_cnt = 12
    · rw [receive_loop_full _ sl (by omega), receive_loop_full _ sl (by omega)]
    · cases cp2 with
      | nil => rfl
      | cons c2 cp2 =>
        have : 12 - sl.rx_cnt.toNat = (12 - sl.rx_cnt.toNat - 1) + 1 := by omega
        rw [this] at ht
        simp at ht
  | cons c cp ih =>
    intro cp2 sl h0 h1 ht
    by_cases hfull : sl.rx_cnt = 12
    · rw [receive_loop_full _ sl (by omega), receive_loop_full _ sl (by omega)]
    · have hlt : sl.rx_cnt < 12 := by omega
      have hk : 12 - sl.rx_cnt.toNat = (12 - sl.rx_cnt.toNat - 1) + 1 := by omega
      cases cp2 with
      | nil =>
        rw [hk] at ht
        simp at ht
      | cons c2 cp2 =>
        rw [hk] at ht
        simp only [List.take_succ_cons, List.cons.injEq] at ht
        obtain ⟨hc, ht2⟩ := ht
        subst hc
        simp only [sllin_receive_loop, receive_store_room sl c h0 hlt]
        apply ih
        · simp only; omega
        · simp only; omega
        · have e : 12 - (sl.rx_cnt + 1).toNat = 12 - sl.rx_cnt.toNat - 1 := by omega
          simp only [e]
          exact ht2

theorem test_bit_error_rxevent (f : Nat) :
    test_bit SLF_ERROR (set_bit SLF_RXEVENT f) = test_bit SLF_ERROR f := by
  simp only [test_bit, set_bit, SLF_ERROR, SLF_RXEVENT, Nat.testBit_or]
  have : Nat.testBit (1 <<< 2) 1 = false := by decide
  rw [this, Bool.or_false]

/-! ### Transmission lemmas -/

theorem setup_payload_break (sl sl1 : sllin) (d : List Nat) (len : Int) (hlim : sl.tx_lim = 3)
    (h : sllin_setup_payload sl d len = some sl1) :
    sl1.tx_buff.1.get? 0 = sl.tx_buff.1.get? 0 := by
  unfold sllin_setup_payload at h
  split at h
  · rename_i hc
    obtain ⟨hc1, hc2, hc3⟩ := hc
    simp only at h
    split at h
    · cases h
      have hne : (sl.tx_lim + len).toNat ≠ 0 := by rw [hlim]; omega
      simp only [Buff.set, List.get?_eq_getElem?]
      rw [List.getElem?_set_ne hne]
      have hlen : sl.tx_buff.1.length = 12 := sl.tx_buff.2
      have hsrc : SLLIN_BUFF_DATA + (d.take len.toNat).length ≤ SLLIN_BUFF_LEN := by
        rw [List.length_take, Nat.min_eq_left hc2]
        exact hc3
      rw [Buff.memcpy, dif_pos hsrc]
      simp only [SLLIN_BUFF_DATA]
      rw [List.append_assoc, List.getElem?_append_left (by simp [hlen])]
      simp [List.getElem?_take]
    · cases h
  · cases h

theorem setup_msg_success_break (sl sl1 : sllin) (mode id : Int) (data : Option (List Nat))
    (len : Int) (h : sllin_setup_msg sl mode id data len = some (0, sl1)) :
    sl1.tx_cnt = 0 ∧ sl1.tx_buff.1.get? 0 = some 0 := by
  obtain ⟨h0, h1, _, _, k3, _⟩ := setup_msg_success_inv sl sl1 mode id data len h
  refine ⟨k3, ?_⟩
  have hhdr : (sllin_setup_header sl id (lin_parity_spec id.toNat)).tx_buff.1.get? 0 = some 0 := by
    rw [setup_header_buf]
    rfl
  rw [setup_msg_accept sl mode id data len h0 h1] at h
  have key : ∀ sl2, (match data with
        | some d =>
          if len ≠ 0 then
            sllin_setup_payload (sllin_setup_header sl id (lin_parity_spec id.toNat)) d len
          else some (sllin_setup_header sl id (lin_parity_spec id.toNat))
        | none => some (sllin_setup_header sl id (lin_parity_spec id.toNat))) = some sl2 →
      sl2.tx_buff.1.get? 0 = some 0 := by
    intro sl2 h2
    cases data with
    | none => cases h2; exact hhdr
    | some d =>
      simp only at h2
      split at h2
      · rw [setup_payload_break _ _ _ _ rfl h2]
        exact hhdr
      · cases h2; exact hhdr
  split at h
  · cases h
  · rename_i sl2 hsl2
    have k := key sl2 hsl2
    split at h <;> cases h <;> exact k

theorem break_baud_eq (b : Int) (h0 : 0 ≤ b) (h1 : b < 2 ^ 31) :
    b % 2 ^ 64 / 2 % 2 ^ 32 = b / 2 := by
  norm_num at h1 ⊢
  omega

theorem offered_break (l : List Nat) (h : l.get? 0 = some 0) : (l.drop 0).take 1 = [0] := by
  cases l with
  | nil => simp at h
  | cons a l =>
    simp at h
    simp [h]

/-- The break emission on a channel whose transmit cursor is at the break
    byte, in terms of the results `w1`, `w2` of the next two tty writes. -/
theorem send_break_cases (sl : sllin) (hb0 : 0 ≤ sl.lin_baud) (hb1 : sl.lin_baud < 2 ^ 31)
    (hcnt : sl.tx_cnt = 0) (hbrk : sl.tx_buff.1.get? 0 = some 0) :
    (sllin_send_break sl).2.rx_expect = 1 ∧
    (sllin_send_break sl).2.tty.ops_log =
      sl.tty.ops_log ++ tty_op.change_speed (sl.lin_baud / 2) :: tty_op.write [0] 1 ::
        (if sl.tty.write_ret sl.tty.nwrites = 0 then [tty_op.write [0] 1] else []) ∧
    ((sllin_send_break sl).1 < 0 ↔
      (sl.tty.write_ret sl.tty.nwrites < 0 ∨
        (sl.tty.write_ret sl.tty.nwrites = 0 ∧ sl.tty.write_ret (sl.tty.nwrites + 1) < 0))) ∧
    (sllin_send_break sl).2.lin_state =
      (if sl.tty.write_ret sl.tty.nwrites < 0 ∨
        (sl.tty.write_ret sl.tty.nwrites = 0 ∧ sl.tty.write_ret (sl.tty.nwrites + 1) < 0)
       then SLSTATE_IDLE else SLSTATE_BREAK_SENT) := by
  have hoff : List.take 1 sl.tx_buff.1 = [0] := offered_break _ hbrk
  have hbaud : sl.lin_baud % 18446744073709551616 / 2 % 4294967296 = sl.lin_baud / 2 := by
    have := break_baud_eq sl.lin_baud hb0 hb1
    norm_num at this
    exact this
  by_cases hw1 : sl.tty.write_ret sl.tty.nwrites < 0
  · have hne : sl.tty.write_ret sl.tty.nwrites ≠ 0 := by omega
    simp [sllin_send_break, sllin_send_tx_buff, tty_write, sltty_change_speed, tx_offered,
      hcnt, hoff, hbaud, hw1, hne, SLLIN_BUFF_BREAK]
  · by_cases hz : sl.tty.write_ret sl.tty.nwrites = 0
    · by_cases hw2 : sl.tty.write_ret (sl.tty.nwrites + 1) < 0
      · simp [sllin_send_break, sllin_send_tx_buff, tty_write, sltty_change_speed, tx_offered,
          hcnt, hoff, hbaud, hz, hw2, SLLIN_BUFF_BREAK]
      · simp [sllin_send_break, sllin_send_tx_buff, tty_write, sltty_change_speed, tx_offered,
          hcnt, hoff, hbaud, hz, hw2, SLLIN_BUFF_BREAK]
    · have hpos : ¬ (1 - sl.tty.write_ret sl.tty.nwrites > 0) := by omega
      simp [sllin_send_break, sllin_send_tx_buff, tty_write, sltty_change_speed, tx_offered,
        hcnt, hoff, hbaud, hw1, hz, hpos, SLLIN_BUFF_BREAK]

theorem send_tx_buff_state (sl : sllin) :
    (sllin_send_tx_buff sl).2.lin_state = sl.lin_state := by
  unfold sllin_send_tx_buff
  simp only
  split_ifs <;> rfl

theorem send_break_state (sl : sllin) :
    (sllin_send_break sl).2.lin_state =
      (if (sllin_send_break sl).1 < 0 then SLSTATE_IDLE else SLSTATE_BREAK_SENT) := by
  unfold sllin_send_break
  simp only
  split
  · rename_i h
    simp only [h, if_true]
  · simp only [send_tx_buff_state]
    rfl

theorem send_tx_buff_frame (sl : sllin) :
    { (sllin_send_tx_buff sl).2 with tty := sl.tty, tx_cnt := sl.tx_cnt } = sl := by
  unfold sllin_send_tx_buff
  simp only
  split_ifs <;> rfl

theorem send_tx_buff_log (sl : sllin) :
    ∃ rest, (sllin_send_tx_buff sl).2.tty.ops_log = sl.tty.ops_log ++ rest := by
  unfold sllin_send_tx_buff
  simp only [tty_write]
  split_ifs
  all_goals first
    | exact ⟨_, rfl⟩
    | exact ⟨_, List.append_assoc _ _ _⟩

theorem send_break_frame (sl : sllin) :
    { (sllin_send_break sl).2 with
      tty := sl.tty, tx_cnt := sl.tx_cnt, rx_expect := sl.rx_expect,
      lin_state := sl.lin_state } = sl ∧
    (sllin_send_break sl).2.rx_expect = 1 := by
  unfold sllin_send_break sllin_send_tx_buff
  simp only
  split_ifs <;> exact ⟨rfl, rfl⟩

theorem send_break_log (sl : sllin) :
    ∃ rest, (sllin_send_break sl).2.tty.ops_log =
      sl.tty.ops_log ++ tty_op.change_speed (sl.lin_baud % 2 ^ 64 / 2 % 2 ^ 32) :: rest := by
  obtain ⟨rest, h⟩ := send_tx_buff_log
    { sl with
      tty := sltty_change_speed sl.tty (sl.lin_baud % 2 ^ 64 / 2 % 2 ^ 32)
      rx_expect := (SLLIN_BUFF_BREAK : Int) + 1
      lin_state := SLSTATE_BREAK_SENT }
  refine ⟨rest, ?_⟩
  unfold sllin_send_break
  simp only
  simp only [sltty_change_speed, List.append_assoc, List.singleton_append] at h
  split
  · exact h
  · exact h

/-! ## Frame composition: the identifier check (C1) -/

/-- C1: `sllin_setup_msg` returns -1 for every identifier above 0x3F and
    leaves the channel exactly as it was (so `tx_buff`, `tx_lim`, `tx_cnt`,
    `rx_cnt`, `rx_expect`, `rx_lim` and `lin_state` are untouched); it returns
    0 for every identifier in 0..0x3F whose payload stays inside the arrays
    (no payload, or at most eight bytes), and for such an identifier it never
    returns a failure code. -/
theorem sllin_setup_msg_identifier_check (sl : sllin) (mode id : Int)
    (data : Option (List Nat)) (len : Int) :
    (0x3f < id → sllin_setup_msg sl mode id data len = some (-1, sl)) ∧
    (0 ≤ id → id ≤ 0x3f → payload_in_bounds data len →
      ∃ sl1, sllin_setup_msg sl mode id data len = some (0, sl1)) ∧
    (0 ≤ id → id ≤ 0x3f → ∀ r, sllin_setup_msg sl mode id data len = some r → r.1 = 0) := by
  refine ⟨setup_msg_reject sl mode id data len, ?_, ?_⟩
  · intro h0 h1 hp
    rw [setup_msg_accept sl mode id data len h0 h1]
    cases data with
    | none =>
      simp only
      split <;> exact ⟨_, rfl⟩
    | some d =>
      simp only [payload_in_bounds] at hp
      rcases hp with hp | ⟨p1, p2, p3⟩
      · subst hp
        exact ⟨_, rfl⟩
      · have hl : len ≠ 0 := by omega
        simp only [hl, ne_eq, not_false_eq_true, if_true]
        rw [setup_payload_eq _ d len rfl p1 p2 p3]
        exact ⟨_, rfl⟩
  · intro h0 h1 r hr
    rw [setup_msg_accept sl mode id data len h0 h1] at hr
    split at hr
    · cases hr
    · split at hr <;> cases hr <;> rfl

/-- C1, witness: identifier 0x40 is refused and the fresh channel is left as
    it was; identifier 0x3F with a two-byte payload is accepted. -/
theorem sllin_setup_msg_identifier_check_witness :
    sllin_setup_msg (sllin_fresh tty_accepts_one) 0 0x40 none 4 =
      some (-1, sllin_fresh tty_accepts_one) ∧
    ∃ sl1, sllin_setup_msg (sllin_fresh tty_accepts_one) 0 0x3f (some [0xAA, 0xBB]) 2 =
      some (0, sl1) :=
  ⟨(sllin_setup_msg_identifier_check (sllin_fresh tty_accepts_one) 0 0x40 none 4).1 (by decide),
   (sllin_setup_msg_identifier_check (sllin_fresh tty_accepts_one) 0 0x3f
      (some [0xAA, 0xBB]) 2).2.1 (by decide) (by decide)
      (Or.inr ⟨by decide, by decide, by decide⟩)⟩

/-! ## Frame composition: the layout of the frame (C2) -/

/-- C2: for an identifier in 0..63 and a payload of one to eight bytes,
    `sllin_setup_msg` succeeds and leaves `tx_cnt = 0`, `tx_lim = 3 + len + 1`
    (at most the buffer length 12) and
    `tx_buff[0..tx_lim) = [0x00, 0x55, id | parity] ++ payload ++ [c]`, `parity`
    being the table entry of `id` and `c` the result of the checksum loop
    over the payload; running the loop again over `tx_buff[3..3+len)` gives
    the embedded byte `tx_buff[3+len]`. With a NULL or empty payload the
    frame is the three header bytes and `tx_lim = 3`. -/
theorem sllin_setup_msg_frame_layout (sl : sllin) (mode id : Int) (payload : List Nat)
    (h0 : 0 ≤ id) (h1 : id ≤ 63) (hl1 : 1 ≤ payload.length) (hl8 : payload.length ≤ 8)
    (hb : ∀ b ∈ payload, b < 256) :
    ∃ par, parity_lookup id = some par ∧
      (∃ sl1, sllin_setup_msg sl mode id (some payload) payload.length = some (0, sl1) ∧
        sl1.tx_cnt = 0 ∧ sl1.tx_lim = 3 + payload.length + 1 ∧
        sl1.tx_lim ≤ SLLIN_BUFF_LEN ∧
        sllin_tx_frame sl1 = [0x00, 0x55, id.toNat ||| par] ++ payload ++ [sllin_csum payload] ∧
        sl1.tx_buff.1.get? (3 + payload.length) =
          some (sllin_csum (sl1.tx_buff.slice 3 (3 + payload.length)))) ∧
      (∀ (data : Option (List Nat)) (len : Int), data = none ∨ len = 0 →
        ∃ sl1, sllin_setup_msg sl mode id data len = some (0, sl1) ∧
          sl1.tx_cnt = 0 ∧ sl1.tx_lim = 3 ∧
          sllin_tx_frame sl1 = [0x00, 0x55, id.toNat ||| par]) := by
  refine ⟨lin_parity_spec id.toNat, parity_lookup_eq id h0 h1, ?_, ?_⟩
  · obtain ⟨sl1, e, c1, _, _, c4, _, c6, c7, c8⟩ :=
      setup_msg_payload_result sl mode id payload h0 h1 hl1 hl8 hb
    refine ⟨sl1, e, c1, c4, ?_, c6, ?_⟩
    · rw [c4]
      simp only [SLLIN_BUFF_LEN, SLLIN_DATA_MAX]
      omega
    · rw [c7, c8]
  · intro data len hd
    obtain ⟨sl1, e, c1, _, _, c4, _, c6⟩ := setup_msg_header_result sl mode id data len h0 h1 hd
    exact ⟨sl1, e, c1, c4, c6⟩

/-- C2, witness: identifier 0x05 with payload `[0xAA, 0xBB]` queues
    `[0x00, 0x55, 0x85, 0xAA, 0xBB, 0x66]`. -/
theorem sllin_setup_msg_frame_layout_witness :
    setup_tx_view (sllin_setup_msg (sllin_fresh tty_accepts_one) 0 0x05 (some [0xAA, 0xBB]) 2) =
      some (0, [0x00, 0x55, 0x85, 0xAA, 0xBB, 0x66]) := by
  obtain ⟨par, hp, ⟨sl1, e, _, _, _, hf, _⟩, _⟩ :=
    sllin_setup_msg_frame_layout (sllin_fresh tty_accepts_one) 0 0x05 [0xAA, 0xBB]
      (by decide) (by decide) (by decide) (by decide) (by decide)
  have hpar : par = 0x80 := by
    have h5 : parity_lookup 0x05 = some 0x80 := by decide
    rw [h5] at hp
    exact (Option.some.inj hp).symm
  subst hpar
  have e2 : sllin_setup_msg (sllin_fresh tty_accepts_one) 0 0x05 (some [0xAA, 0xBB]) 2 =
      some (0, sl1) := e
  rw [e2]
  simp only [setup_tx_view, Option.map_some', hf]
  decide

/-! ## Frame composition: the value of the checksum (C3) -/

/-- C3, counterexample: for the one-byte payload `[0xFF]` the checksum byte
    is 0xFF, while the sum of the payload bytes mod 255 is 0. -/
theorem sllin_setup_msg_checksum_not_mod_255 :
    setup_tx_view (sllin_setup_msg (sllin_fresh tty_accepts_one) 0 0 (some [0xFF]) 1) =
      some (0, [0x00, 0x55, 0x80, 0xFF, 0xFF]) ∧
    ([0xFF] : List Nat).sum % 255 = 0 ∧ (0xFF : Nat) ≠ ([0xFF] : List Nat).sum % 255 := by
  decide

/-- When no payload is copied, `sllin_setup_msg` writes the three header
    bytes and nothing else into `tx_buff`. -/
theorem setup_msg_header_buf (sl sl1 : sllin) (mode id : Int) (data : Option (List Nat))
    (len : Int) (h0 : 0 ≤ id) (h1 : id ≤ 0x3f) (hd : data = none ∨ len = 0)
    (h : sllin_setup_msg sl mode id data len = some (0, sl1)) :
    sl1.tx_lim = 3 ∧
    sl1.tx_buff.1 =
      0 :: 0x55 :: (id.toNat ||| lin_parity_spec id.toNat) :: sl.tx_buff.1.drop 3 := by
  have hidb : (id.toNat ||| lin_parity_spec id.toNat) % 256 =
      id.toNat ||| lin_parity_spec id.toNat :=
    Nat.mod_eq_of_lt (parity_table_row ⟨id.toNat, by omega⟩).2.2.2.2.2.2.1
  have hbuf := setup_header_buf sl id (lin_parity_spec id.toNat)
  rw [hidb] at hbuf
  rw [setup_msg_accept sl mode id _ _ h0 h1,
    setup_fill_header (sllin_setup_header sl id (lin_parity_spec id.toNat)) data len hd] at h
  by_cases hl : len = 0
  · subst hl
    simp only [ne_eq, not_true_eq_false, if_false, Option.some.injEq, Prod.mk.injEq,
      true_and] at h
    subst h
    exact ⟨rfl, hbuf⟩
  · simp only [ne_eq, hl, not_false_eq_true, if_true, Option.some.injEq, Prod.mk.injEq,
      true_and] at h
    subst h
    exact ⟨rfl, hbuf⟩

/-- C3, amended: for a payload of one to eight bytes the checksum byte
    `tx_buff[3 + len]` is the sum of the payload bytes mod 255, except that a
    non-zero sum divisible by 255 gives 255 (the end-around carry never
    folds 255 to 0); for a payload of zero bytes no checksum byte is
    written: `tx_lim` is 3, the frame is the three header bytes and
    `tx_buff[3..12)` is left as it was. -/
theorem sllin_setup_msg_checksum_value (sl : sllin) (mode id : Int) (payload : List Nat)
    (h0 : 0 ≤ id) (h1 : id ≤ 63) (hl8 : payload.length ≤ 8)
    (hb : ∀ b ∈ payload, b < 256) :
    ∃ sl1, sllin_setup_msg sl mode id (some payload) payload.length = some (0, sl1) ∧
      (1 ≤ payload.length →
        sl1.tx_lim = 3 + payload.length + 1 ∧
        sl1.tx_buff.1.get? (3 + payload.length) =
          some (if payload.sum % 255 = 0 ∧ payload.sum ≠ 0 then 255
            else payload.sum % 255)) ∧
      (payload.length = 0 →
        sl1.tx_lim = 3 ∧
        sllin_tx_frame sl1 = [0x00, 0x55, id.toNat ||| lin_parity_spec id.toNat] ∧
        sl1.tx_buff.1.drop 3 = sl.tx_buff.1.drop 3) := by
  by_cases hl : 1 ≤ payload.length
  · obtain ⟨sl1, e, _, _, _, c4, _, _, _, c8⟩ :=
      setup_msg_payload_result sl mode id payload h0 h1 hl hl8 hb
    refine ⟨sl1, e, fun _ => ⟨c4, by rw [c8, sllin_csum_closed payload hb]⟩, ?_⟩
    intro hz
    omega
  · have hz : payload.length = 0 := by omega
    have hd : (some payload : Option (List Nat)) = none ∨ ((payload.length : Nat) : Int) = 0 :=
      Or.inr (by rw [hz]; rfl)
    obtain ⟨sl1, e, _⟩ := setup_msg_header_result sl mode id (some payload) payload.length
      h0 h1 hd
    obtain ⟨k1, k2⟩ := setup_msg_header_buf sl sl1 mode id (some payload) payload.length
      h0 h1 hd e
    refine ⟨sl1, e, fun h => absurd h hl, fun _ => ⟨k1, ?_, ?_⟩⟩
    · simp only [sllin_tx_frame, Buff.slice, k1, k2]
      rfl
    · rw [k2]
      rfl

/-- C3, witness: the payload `[0x11, 0x22, 0x33, 0x44]` gets the checksum
    0xAA; the empty payload leaves `tx_lim = 3` and the bytes behind the
    header of the zeroed buffer untouched. -/
theorem sllin_setup_msg_checksum_value_witness :
    (∃ sl1, sllin_setup_msg (sllin_fresh tty_accepts_one) 0 0x10
        (some [0x11, 0x22, 0x33, 0x44]) 4 = some (0, sl1) ∧
      sl1.tx_lim = 8 ∧ sl1.tx_buff.1.get? 7 = some 0xAA) ∧
    (∃ sl1, sllin_setup_msg (sllin_fresh tty_accepts_one) 0 0x10 (some []) 0 = some (0, sl1) ∧
      sl1.tx_lim = 3 ∧ sl1.tx_buff.1.drop 3 = [0, 0, 0, 0, 0, 0, 0, 0, 0]) := by
  constructor
  · obtain ⟨sl1, e, hc, _⟩ :=
      sllin_setup_msg_checksum_value (sllin_fresh tty_accepts_one) 0 0x10
        [0x11, 0x22, 0x33, 0x44] (by decide) (by decide) (by decide) (by decide)
    obtain ⟨hlim, hsum⟩ := hc (by decide)
    exact ⟨sl1, e, hlim, hsum⟩
  · obtain ⟨sl1, e, _, hz⟩ :=
      sllin_setup_msg_checksum_value (sllin_fresh tty_accepts_one) 0 0x10 []
        (by decide) (by decide) (by decide) (by decide)
    obtain ⟨hlim, _, htail⟩ := hz rfl
    exact ⟨sl1, e, hlim, htail⟩

/-! ## The identifier parity table (C4) -/

/-- C4: the table has 64 entries, and for every identifier in 0..63 its
    entry is the standard LIN parity: bit 6 is `id0 ^ id1 ^ id2 ^ id4`, bit 7
    is `!(id1 ^ id3 ^ id4 ^ id5)`, all other bits are zero, so the entry is
    one of 0x00, 0x40, 0x80, 0xC0 and `(id | parity) & 0x3F = id`. -/
theorem sllin_id_parity_table_standard (id : Int) (h0 : 0 ≤ id) (h1 : id ≤ 63) :
    sllin_id_parity_table.length = 64 ∧
    ∃ par, parity_lookup id = some par ∧
      par.testBit 6 = xor (xor (xor (id.toNat.testBit 0) (id.toNat.testBit 1))
        (id.toNat.testBit 2)) (id.toNat.testBit 4) ∧
      par.testBit 7 = !(xor (xor (xor (id.toNat.testBit 1) (id.toNat.testBit 3))
        (id.toNat.testBit 4)) (id.toNat.testBit 5)) ∧
      par &&& 0x3F = 0 ∧ par < 256 ∧
      par ∈ [0x00, 0x40, 0x80, 0xC0] ∧
      (id.toNat ||| par) &&& 0x3F = id.toNat := by
  refine ⟨by decide, lin_parity_spec id.toNat, parity_lookup_eq id h0 h1, ?_⟩
  obtain ⟨_, r2, r3, r4, r5, r6, _, r8⟩ := parity_table_row ⟨id.toNat, by omega⟩
  exact ⟨r2, r3, r4, r8, r5, r6⟩

/-- C4, witness: identifier 0x05 has the table entry 0x80. -/
theorem sllin_id_parity_table_standard_witness :
    ∃ par, parity_lookup 0x05 = some par ∧ par ∈ [0x00, 0x40, 0x80, 0xC0] ∧
      (5 ||| par) &&& 0x3F = 5 := by
  obtain ⟨_, par, hp, _, _, _, _, hm, hid⟩ :=
    sllin_id_parity_table_standard 0x05 (by decide) (by decide)
  exact ⟨par, hp, hm, hid⟩

/-! ## Frame composition: the receive expectation (C5) -/

/-- C5, counterexample: on a fresh channel a header-only request for four
    data bytes leaves `rx_expect = 0` (not 5) and `rx_lim = 5`; a frame whose
    payload `[0xAA, 0xBB]` the master supplies leaves `rx_lim = 3` (not 0);
    and the same header-only request composed a second time leaves
    `rx_lim = 10`, which depends on the earlier composition. -/
theorem sllin_setup_msg_rx_expectation_counterexample :
    setup_rx_view (sllin_setup_msg (sllin_fresh tty_accepts_one) 0 0x10 none 4) =
      some (0, 0, 5) ∧
    setup_rx_view (sllin_setup_msg (sllin_fresh tty_accepts_one) 0 0x05 (some [0xAA, 0xBB]) 2) =
      some (0, 0, 3) ∧
    setup_rx_view ((sllin_setup_msg (sllin_fresh tty_accepts_one) 0 0x10 none 4).bind
      (fun r => sllin_setup_msg r.2 0 0x10 none 4)) = some (0, 0, 10) := by
  decide

theorem int_wrap_of_range (x : Int) (h0 : -2 ^ 31 ≤ x) (h1 : x < 2 ^ 31) : int_wrap x = x := by
  unfold int_wrap
  norm_num at h0 h1 ⊢
  omega

/-- C5, amended: after every successful frame composition `rx_expect` is 0,
    whether or not a payload was supplied and whatever the channel was
    before; on a channel whose `rx_lim` is 0 the composition leaves
    `rx_lim = len + 1` when `len` is not zero, again whether or not a payload
    was supplied, and `rx_lim = 0` when `len` is zero, for every `int` value
    of `len` below `INT_MAX` (at `INT_MAX` the sum wraps to `INT_MIN`). -/
theorem sllin_setup_msg_rx_expectation (sl sl1 : sllin) (mode id : Int)
    (data : Option (List Nat)) (len : Int)
    (hok : sllin_setup_msg sl mode id data len = some (0, sl1)) :
    sl1.rx_expect = 0 ∧
    (sl.rx_lim = 0 → -2 ^ 31 ≤ len → len < 2 ^ 31 - 1 →
      sl1.rx_lim = (if len ≠ 0 then len + 1 else 0)) ∧
    (sl.rx_lim = 0 → len = 2 ^ 31 - 1 → sl1.rx_lim = -2 ^ 31) := by
  obtain ⟨_, _, k1, _, _, k4⟩ := setup_msg_success_inv sl sl1 mode id data len hok
  refine ⟨k1, ?_, ?_⟩
  · intro hlim hl0 hl1
    rw [k4, hlim]
    split
    · rw [Int.zero_add, int_wrap_of_range (len + 1) (by omega) (by omega),
        int_wrap_of_range (len + 1) (by omega) (by omega)]
    · rfl
  · intro hlim hl
    have hne : len ≠ 0 := by rw [hl]; decide
    rw [k4, hlim, if_pos hne, hl]
    decide

/-- C5, witness: a header-only request for four data bytes on a fresh
    channel leaves `rx_expect = 0` and `rx_lim = 5`. -/
theorem sllin_setup_msg_rx_expectation_witness :
    ∃ sl1, sllin_setup_msg (sllin_fresh tty_accepts_one) 0 0x10 none 4 = some (0, sl1) ∧
      sl1.rx_expect = 0 ∧ sl1.rx_lim = 5 := by
  obtain ⟨sl1, e, _⟩ := setup_msg_header_result (sllin_fresh tty_accepts_one) 0 0x10 none 4
    (by decide) (by decide) (Or.inl rfl)
  obtain ⟨w1, w2, _⟩ := sllin_setup_msg_rx_expectation (sllin_fresh tty_accepts_one) sl1 0 0x10
    none 4 e
  exact ⟨sl1, e, w1, w2 rfl (by decide) (by decide)⟩

/-! ## The receive buffer (C6) -/

/-- C6, counterexample: thirteen unmarked characters handed to
    `sllin_receive_buf` on a fresh channel leave twelve characters, the error
    bit clear and the error counter zero, and the channel is exactly the one
    twelve characters leave: the thirteenth byte raises nothing. -/
theorem sllin_receive_buf_no_overflow_signal :
    receive_view (sllin_receive_buf (sllin_fresh tty_accepts_one)
      [1, 2, 3, 4, 5, 6, 7, 8, 9, 10, 11, 12, 13] none) =
      some (12, [1, 2, 3, 4, 5, 6, 7, 8, 9, 10, 11, 12], false, 0) ∧
    sllin_receive_buf (sllin_fresh tty_accepts_one)
      [1, 2, 3, 4, 5, 6, 7, 8, 9, 10, 11, 12, 13] none =
    sllin_receive_buf (sllin_fresh tty_accepts_one)
      [1, 2, 3, 4, 5, 6, 7, 8, 9, 10, 11, 12] none :=
  ⟨by decide, rfl⟩

/-- C6, amended: on a reset receive buffer (`rx_cnt = 0`), unmarked
    characters are stored in arrival order, each at index `rx_cnt`, which
    then grows by one, until twelve are stored; `rx_cnt` never exceeds 12; a
    character arriving at a full buffer is dropped without any signal: the
    channel is left as it is, the error bit and the error counter keep their
    values, and the result depends on the first twelve characters only. -/
theorem sllin_receive_buf_fill (sl : sllin) (cp : List Nat) (fp : Option (List Nat))
    (hreset : sl.rx_cnt = 0) (hclear : markers_clear cp fp) :
    ∃ sl1, sllin_receive_buf sl cp fp = some sl1 ∧
      sl1.rx_cnt = min (cp.length : Int) 12 ∧ sl1.rx_cnt ≤ SLLIN_BUFF_LEN ∧
      rx_filled sl1 = cp.take 12 ∧
      test_bit SLF_ERROR sl1.flags = test_bit SLF_ERROR sl.flags ∧
      sl1.rx_errors = sl.rx_errors ∧ sl1.lin_state = sl.lin_state ∧
      (∀ (cp2 : List Nat) (fp2 : Option (List Nat)), markers_clear cp2 fp2 →
        cp2.take 12 = cp.take 12 → sllin_receive_buf sl cp2 fp2 = some sl1) ∧
      (∀ (s : sllin) (c : Nat), 0 ≤ s.rx_cnt → s.rx_cnt < 12 →
        ∃ s1, sllin_receive_store s c = some s1 ∧ s1.rx_cnt = s.rx_cnt + 1 ∧
          s1.rx_buff.1.get? s.rx_cnt.toNat = some c) ∧
      (∀ (s : sllin) (c : Nat), 12 ≤ s.rx_cnt → sllin_receive_store s c = some s) := by
  obtain ⟨sl2, e, c1, c2, c3⟩ := receive_loop_unmarked cp sl (by omega) (by omega)
  have hf0 : rx_filled sl = [] := by simp [rx_filled, hreset]
  rw [hf0, List.nil_append] at c2
  rw [hreset, Int.zero_add] at c1
  have hflags : sl2.flags = sl.flags := by
    have h := congrArg sllin.flags c3
    exact h
  have herrs : sl2.rx_errors = sl.rx_errors := by
    have h := congrArg sllin.rx_errors c3
    exact h
  have hstate : sl2.lin_state = sl.lin_state := by
    have h := congrArg sllin.lin_state c3
    exact h
  have hbuf : sllin_receive_buf sl cp fp =
      if sl2.rx_cnt ≥ sl2.rx_expect then
        some { sl2 with flags := set_bit SLF_RXEVENT sl2.flags }
      else some sl2 := by
    simp only [sllin_receive_buf, receive_loop_clear cp sl fp hclear, e]
  have hle : min (cp.length : Int) 12 ≤ (SLLIN_BUFF_LEN : Int) := by
    simp only [SLLIN_BUFF_LEN, SLLIN_DATA_MAX]
    omega
  have hpre : ∀ (cp2 : List Nat) (fp2 : Option (List Nat)), markers_clear cp2 fp2 →
      cp2.take 12 = cp.take 12 → sllin_receive_buf sl cp2 fp2 = sllin_receive_buf sl cp fp := by
    intro cp2 fp2 hc2 ht
    have h12 : 12 - sl.rx_cnt.toNat = 12 := by rw [hreset]; rfl
    have := receive_loop_prefix cp2 cp sl (by omega) (by omega) (by rw [h12]; exact ht)
    simp only [sllin_receive_buf, receive_loop_clear cp2 sl fp2 hc2,
      receive_loop_clear cp sl fp hclear, this]
  have hstep : ∀ (s : sllin) (c : Nat), 0 ≤ s.rx_cnt → s.rx_cnt < 12 →
      ∃ s1, sllin_receive_store s c = some s1 ∧ s1.rx_cnt = s.rx_cnt + 1 ∧
        s1.rx_buff.1.get? s.rx_cnt.toNat = some c := by
    intro s c h0 h1
    refine ⟨_, receive_store_room s c h0 h1, rfl, ?_⟩
    have hlen : s.rx_buff.1.length = 12 := s.rx_buff.2
    simp only [Buff.set, List.get?_eq_getElem?]
    exact List.getElem?_set_self (by omega)
  by_cases hw : sl2.rx_cnt ≥ sl2.rx_expect
  · rw [if_pos hw] at hbuf
    refine ⟨_, hbuf, c1, ?_, c2, ?_, herrs, hstate, ?_, hstep, receive_store_full⟩
    · simp only
      rw [c1]
      exact hle
    · simp only
      rw [test_bit_error_rxevent, hflags]
    · intro cp2 fp2 hc2 ht
      rw [hpre cp2 fp2 hc2 ht, hbuf]
  · rw [if_neg hw] at hbuf
    refine ⟨_, hbuf, c1, ?_, c2, ?_, herrs, hstate, ?_, hstep, receive_store_full⟩
    · rw [c1]
      exact hle
    · rw [hflags]
    · intro cp2 fp2 hc2 ht
      rw [hpre cp2 fp2 hc2 ht, hbuf]

/-- C6, witness: thirteen unmarked characters on a fresh channel leave
    `rx_cnt = 12` and the first twelve of them in the buffer. -/
theorem sllin_receive_buf_fill_witness :
    ∃ sl1, sllin_receive_buf (sllin_fresh tty_accepts_one)
        [1, 2, 3, 4, 5, 6, 7, 8, 9, 10, 11, 12, 13] none = some sl1 ∧
      sl1.rx_cnt = 12 ∧ rx_filled sl1 = [1, 2, 3, 4, 5, 6, 7, 8, 9, 10, 11, 12] := by
  obtain ⟨sl1, e, c1, _, c2, _⟩ := sllin_receive_buf_fill (sllin_fresh tty_accepts_one)
    [1, 2, 3, 4, 5, 6, 7, 8, 9, 10, 11, 12, 13] none rfl trivial
  exact ⟨sl1, e, c1, c2⟩

/-! ## The state machine of the worker thread (C7) -/

/-- C7, counterexample: a wake in state ID_SENT leads to IDLE, not to
    RESPONSE_WAIT; a wake in state RESPONSE_WAIT with all expected
    characters received stays in RESPONSE_WAIT; a full pass of the loop in
    state RESPONSE_SENT stays in RESPONSE_SENT. -/
theorem sllin_kwthread_not_spec_table :
    (sllin_kwthread_wake
      { sllin_fresh tty_accepts_one with lin_state := SLSTATE_ID_SENT }).lin_state =
      SLSTATE_IDLE ∧
    (sllin_kwthread_wake
      { sllin_fresh tty_accepts_one with
        lin_state := SLSTATE_RESPONSE_WAIT, rx_cnt := 5, rx_expect := 5 }).lin_state =
      SLSTATE_RESPONSE_WAIT ∧
    (sllin_kwthread_wake (sllin_kwthread_start
      { sllin_fresh tty_accepts_one with lin_state := SLSTATE_RESPONSE_SENT })).lin_state =
      SLSTATE_RESPONSE_SENT := by
  decide

/-- C7, amended: in the loop of the worker thread the switch after a wake
    takes BREAK_SENT to ID_SENT when `rx_cnt >= 1` (the pending identifier
    stays) and does nothing when `rx_cnt <= 0`, takes ID_SENT to IDLE and
    clears the pending identifier, and does nothing in IDLE, RESPONSE_WAIT
    and RESPONSE_SENT (a wake that does nothing only clears the two event
    bits); the check before the wait takes IDLE to BREAK_SENT when the node
    is master, an identifier is pending and `sllin_send_break` does not
    report failure, and stays in IDLE when it does; it keeps the pending
    identifier, and it leaves the channel as it is when the state is not
    IDLE, the node is not master or nothing is pending. -/
theorem sllin_kwthread_transitions (sl : sllin) :
    (sllin_kwthread_wake sl).lin_state =
      (match sl.lin_state with
        | SLSTATE_BREAK_SENT =>
          if sl.rx_cnt ≤ 0 then SLSTATE_BREAK_SENT else SLSTATE_ID_SENT
        | SLSTATE_ID_SENT => SLSTATE_IDLE
        | st => st) ∧
    (sllin_kwthread_start sl).lin_state =
      (if sl.lin_state = SLSTATE_IDLE ∧ sl.lin_master ≠ 0 ∧ sl.id_to_send ≠ 0 then
        (if (sllin_send_break sl).1 < 0 then SLSTATE_IDLE else SLSTATE_BREAK_SENT)
       else sl.lin_state) ∧
    (sllin_kwthread_wake sl).id_to_send =
      (if sl.lin_state = SLSTATE_ID_SENT then 0 else sl.id_to_send) ∧
    (sllin_kwthread_start sl).id_to_send = sl.id_to_send ∧
    (sl.lin_state = SLSTATE_ID_SENT →
      sllin_kwthread_wake sl =
        { sl with
          flags := clear_bit SLF_TXEVENT (clear_bit SLF_RXEVENT sl.flags)
          id_to_send := 0
          lin_state := SLSTATE_IDLE }) ∧
    (sl.lin_state ≠ SLSTATE_ID_SENT →
      ¬ (sl.lin_state = SLSTATE_BREAK_SENT ∧ 0 < sl.rx_cnt) →
      sllin_kwthread_wake sl =
        { sl with flags := clear_bit SLF_TXEVENT (clear_bit SLF_RXEVENT sl.flags) }) ∧
    (¬ (sl.lin_state = SLSTATE_IDLE ∧ sl.lin_master ≠ 0 ∧ sl.id_to_send ≠ 0) →
      sllin_kwthread_start sl = sl) := by
  have hbreak : ∀ s : sllin, (sllin_send_tx_buff s).2.id_to_send = s.id_to_send := by
    intro s
    have h := congrArg sllin.id_to_send (send_tx_buff_frame s)
    exact h
  refine ⟨?_, ?_, ?_, ?_, ?_, ?_, ?_⟩
  · cases h : sl.lin_state
    · simp [sllin_kwthread_wake, h]
    · by_cases hr : sl.rx_cnt ≤ 0
      · simp [sllin_kwthread_wake, h, hr, SLLIN_BUFF_BREAK]
      · simp [sllin_kwthread_wake, h, hr, SLLIN_BUFF_BREAK]
    · simp [sllin_kwthread_wake, h]
    · simp [sllin_kwthread_wake, h]
    · simp [sllin_kwthread_wake, h]
  · unfold sllin_kwthread_start
    split
    · exact send_break_state sl
    · rfl
  · cases h : sl.lin_state
    · simp [sllin_kwthread_wake, h]
    · by_cases hr : sl.rx_cnt ≤ 0
      · simp [sllin_kwthread_wake, h, hr, SLLIN_BUFF_BREAK]
      · simp [sllin_kwthread_wake, h, hr, SLLIN_BUFF_BREAK, hbreak]
    · simp [sllin_kwthread_wake, h]
    · simp [sllin_kwthread_wake, h]
    · simp [sllin_kwthread_wake, h]
  · unfold sllin_kwthread_start
    split
    · have h := congrArg sllin.id_to_send (send_break_frame sl).1
      exact h
    · rfl
  · intro h
    simp [sllin_kwthread_wake, h]
  · intro hne hnb
    cases h : sl.lin_state
    · simp [sllin_kwthread_wake, h]
    · have hr : sl.rx_cnt ≤ 0 := by
        by_contra hc
        exact hnb ⟨h, by omega⟩
      simp [sllin_kwthread_wake, h, hr, SLLIN_BUFF_BREAK]
    · exact absurd h hne
    · simp [sllin_kwthread_wake, h]
    · simp [sllin_kwthread_wake, h]
  · intro hn
    simp only [sllin_kwthread_start, hn, if_false]

/-- C7, witness: a wake in ID_SENT with an identifier pending gives IDLE with
    none pending; a wake in BREAK_SENT with nothing received and a pass in
    RESPONSE_SENT leave state and pending identifier as they are. -/
theorem sllin_kwthread_transitions_witness :
    tx_view (sllin_kwthread_wake
      { sllin_fresh tty_accepts_one with lin_state := SLSTATE_ID_SENT, id_to_send := 1 }) =
      ([], SLSTATE_IDLE, 0, 0) ∧
    (sllin_kwthread_wake
      { sllin_fresh tty_accepts_one with
        lin_state := SLSTATE_ID_SENT, id_to_send := 1 }).id_to_send = 0 ∧
    tx_view (sllin_kwthread_wake
      { sllin_fresh tty_accepts_one with lin_state := SLSTATE_BREAK_SENT, id_to_send := 1 }) =
      ([], SLSTATE_BREAK_SENT, 0, 0) ∧
    sllin_kwthread_start
      { sllin_fresh tty_accepts_one with lin_state := SLSTATE_RESPONSE_SENT, id_to_send := 1 } =
      { sllin_fresh tty_accepts_one with
        lin_state := SLSTATE_RESPONSE_SENT, id_to_send := 1 } := by
  obtain ⟨_, _, _, _, h5, _, _⟩ := sllin_kwthread_transitions
    { sllin_fresh tty_accepts_one with lin_state := SLSTATE_ID_SENT, id_to_send := 1 }
  obtain ⟨_, _, _, _, _, h6, _⟩ := sllin_kwthread_transitions
    { sllin_fresh tty_accepts_one with lin_state := SLSTATE_BREAK_SENT, id_to_send := 1 }
  obtain ⟨_, _, _, _, _, _, h7⟩ := sllin_kwthread_transitions
    { sllin_fresh tty_accepts_one with lin_state := SLSTATE_RESPONSE_SENT, id_to_send := 1 }
  refine ⟨?_, ?_, ?_, h7 (by decide)⟩
  · rw [h5 rfl]
    rfl
  · rw [h5 rfl]
  · rw [h6 (by decide) (by decide)]
    rfl

/-! ## Break emission (C8) -/

/-- C8: in state IDLE the worker thread calls the tty if and only if the node
    is master and an identifier is pending, and otherwise leaves the channel
    as it is (this for every channel in state IDLE). On a freshly composed
    frame (`tx_cnt = 0`, break byte `tx_buff[0] = 0`) and with a baud rate
    in the range of a non-negative `int`, the emission first sets the speed
    `lin_baud / 2`, then offers the tty one byte, the break byte 0 (once
    more when the tty accepted nothing), sets `rx_expect = 1`, and leaves the
    state BREAK_SENT when no write returned a negative result. -/
theorem sllin_kwthread_idle_emits_break (sl : sllin) (hidle : sl.lin_state = SLSTATE_IDLE) :
    ((sllin_kwthread_start sl).tty.ops_log ≠ sl.tty.ops_log ↔
      (sl.lin_master ≠ 0 ∧ sl.id_to_send ≠ 0)) ∧
    (¬ (sl.lin_master ≠ 0 ∧ sl.id_to_send ≠ 0) → sllin_kwthread_start sl = sl) ∧
    (sl.lin_master ≠ 0 → sl.id_to_send ≠ 0 →
      (sllin_kwthread_start sl).rx_expect = 1 ∧
      (0 ≤ (sllin_send_break sl).1 →
        (sllin_kwthread_start sl).lin_state = SLSTATE_BREAK_SENT)) ∧
    (freshly_composed sl → 0 ≤ sl.lin_baud → sl.lin_baud < 2 ^ 31 →
      sl.tx_buff.1.get? SLLIN_BUFF_BREAK = some 0 ∧
      (sl.lin_master ≠ 0 → sl.id_to_send ≠ 0 →
        (sllin_kwthread_start sl).tty.ops_log =
          sl.tty.ops_log ++ tty_op.change_speed (sl.lin_baud / 2) :: tty_op.write [0] 1 ::
            (if sl.tty.write_ret sl.tty.nwrites = 0 then [tty_op.write [0] 1] else []) ∧
        (sllin_kwthread_start sl).rx_expect = 1 ∧
        (0 ≤ sl.tty.write_ret sl.tty.nwrites →
          (sl.tty.write_ret sl.tty.nwrites = 0 →
            0 ≤ sl.tty.write_ret (sl.tty.nwrites + 1)) →
          (sllin_kwthread_start sl).lin_state = SLSTATE_BREAK_SENT))) := by
  have hyes : sl.lin_master ≠ 0 → sl.id_to_send ≠ 0 →
      sllin_kwthread_start sl = (sllin_send_break sl).2 := by
    intro hm hp
    simp only [sllin_kwthread_start, hidle, hm, hp, ne_eq, not_false_eq_true, and_self, if_true]
  have hno : ¬ (sl.lin_master ≠ 0 ∧ sl.id_to_send ≠ 0) → sllin_kwthread_start sl = sl := by
    intro hn
    have : ¬ (sl.lin_state = SLSTATE_IDLE ∧ sl.lin_master ≠ 0 ∧ sl.id_to_send ≠ 0) :=
      fun h => hn h.2
    simp only [sllin_kwthread_start, this, if_false]
  refine ⟨?_, hno, ?_, ?_⟩
  · constructor
    · intro hne
      by_contra hn
      exact hne (by rw [hno hn])
    · rintro ⟨hm, hp⟩
      obtain ⟨rest, hlog⟩ := send_break_log sl
      rw [hyes hm hp, hlog]
      intro h
      have := congrArg List.length h
      simp at this
  · intro hm hp
    rw [hyes hm hp]
    refine ⟨(send_break_frame sl).2, ?_⟩
    intro hres
    rw [send_break_state sl]
    have : ¬ ((sllin_send_break sl).1 < 0) := by omega
    simp only [this, if_false]
  · intro hfresh hb0 hb1
    obtain ⟨sl0, mode, id, data, len, sl1, hs, hbuf, hc⟩ := hfresh
    obtain ⟨k1, k2⟩ := setup_msg_success_break sl0 sl1 mode id data len hs
    have hcnt : sl.tx_cnt = 0 := by rw [hc, k1]
    have hbrk : sl.tx_buff.1.get? 0 = some 0 := by rw [hbuf, k2]
    obtain ⟨b1, b2, b3, b4⟩ := send_break_cases sl hb0 hb1 hcnt hbrk
    refine ⟨hbrk, ?_⟩
    intro hm hp
    rw [hyes hm hp]
    refine ⟨b2, b1, ?_⟩
    intro h1 h2
    rw [b4]
    have : ¬ (sl.tty.write_ret sl.tty.nwrites < 0 ∨
        (sl.tty.write_ret sl.tty.nwrites = 0 ∧ sl.tty.write_ret (sl.tty.nwrites + 1) < 0)) := by
      rintro (h | ⟨h, h3⟩)
      · omega
      · have := h2 h
        omega
    simp only [this, if_false]

theorem composed_0x33_fresh : freshly_composed composed_0x33 :=
  ⟨sllin_fresh tty_accepts_one, 0, 0x33, none, 0, { composed_0x33 with id_to_send := 0 },
    rfl, rfl, rfl⟩

/-- C8, witness: the worker thread on a fresh channel with the frame for
    identifier 0x33 pending sets 1200 baud, offers the break byte, expects
    one character and is in state BREAK_SENT; the idle channel after the
    frame (`tx_cnt = 2`, nothing pending) is left as it is. -/
theorem sllin_kwthread_idle_emits_break_witness :
    (sllin_kwthread_start composed_0x33).tty.ops_log =
      [tty_op.change_speed 1200, tty_op.write [0] 1] ∧
    (sllin_kwthread_start composed_0x33).rx_expect = 1 ∧
    (sllin_kwthread_start composed_0x33).lin_state = SLSTATE_BREAK_SENT ∧
    sllin_kwthread_start { composed_0x33 with tx_cnt := 2, id_to_send := 0 } =
      { composed_0x33 with tx_cnt := 2, id_to_send := 0 } := by
  obtain ⟨_, _, _, h⟩ := sllin_kwthread_idle_emits_break composed_0x33 rfl
  obtain ⟨_, h2⟩ := h composed_0x33_fresh (by decide) (by decide)
  obtain ⟨hlog, hrx, hst⟩ := h2 (by decide) (by decide)
  obtain ⟨_, hno, _⟩ := sllin_kwthread_idle_emits_break
    { composed_0x33 with tx_cnt := 2, id_to_send := 0 } rfl
  exact ⟨hlog, hrx, hst (by decide) (by decide), hno (by decide)⟩

/-! ## The header after the break (C9) -/

/-- C9, the code at the failing input: the worker thread woken in state
    BREAK_SENT after the echo of the break byte (`rx_cnt = 1`, `tx_cnt = 1`,
    `tx_lim = 3`, frame `[0x00, 0x55, 0x73]`) restores 2400 baud and then
    offers the tty one byte, the sync byte 0x55, not the two remaining
    header bytes; it enters ID_SENT with `tx_cnt = 2` of `tx_lim = 3`. -/
theorem sllin_kwthread_header_one_byte :
    (break_echoed tty_accepts_one).map (fun s => (s.rx_cnt, sllin_tx_frame s, tx_view s)) =
      some (1, [0x00, 0x55, 0x73],
        [tty_op.change_speed 2400, tty_op.change_speed 1200, tty_op.write [0] 1],
        SLSTATE_BREAK_SENT, 1, 3) ∧
    (break_echoed tty_accepts_one).map (fun s => tx_view (sllin_kwthread_wake s)) =
      some ([tty_op.change_speed 2400, tty_op.change_speed 1200, tty_op.write [0] 1,
        tty_op.change_speed 2400, tty_op.write [0x55] 1], SLSTATE_ID_SENT, 2, 3) :=
  ⟨rfl, rfl⟩

/-! ## Failure of a tty write (C10) -/

/-- C10, the code at the failing input: when the write of the header after
    the break returns -1, the worker thread still enters ID_SENT (the result
    of `sllin_send_tx_buff` is not looked at); a failing write during the
    break emission does leave the state IDLE. -/
theorem sllin_kwthread_header_write_failure :
    (break_echoed tty_fails_after_break).map
      (fun s => (s.lin_state, (sllin_send_tx_buff s).1, (sllin_kwthread_wake s).lin_state)) =
      some (SLSTATE_BREAK_SENT, -1, SLSTATE_ID_SENT) ∧
    (sllin_kwthread_init (sllin_fresh tty_fails)).map
      (fun s => ((sllin_send_break s).1, (sllin_kwthread_start s).lin_state)) =
      some (-1, SLSTATE_IDLE) := by
  decide

/-! ## Delivery of a response (C11) -/

theorem receive_buf_unmarked (sl : sllin) (cp : List Nat) (fp : Option (List Nat))
    (hclear : markers_clear cp fp) (h0 : 0 ≤ sl.rx_cnt) (h1 : sl.rx_cnt ≤ 12) :
    ∃ sl1, sllin_receive_buf sl cp fp = some sl1 ∧ sl1.lin_state = sl.lin_state := by
  obtain ⟨sl2, e, _, _, c3⟩ := receive_loop_unmarked cp sl h0 h1
  have hstate : sl2.lin_state = sl.lin_state := by
    have h := congrArg sllin.lin_state c3
    exact h
  have hbuf : sllin_receive_buf sl cp fp =
      if sl2.rx_cnt ≥ sl2.rx_expect then
        some { sl2 with flags := set_bit SLF_RXEVENT sl2.flags }
      else some sl2 := by
    simp only [sllin_receive_buf, receive_loop_clear cp sl fp hclear, e]
  by_cases hw : sl2.rx_cnt ≥ sl2.rx_expect
  · rw [if_pos hw] at hbuf
    exact ⟨_, hbuf, hstate⟩
  · rw [if_neg hw] at hbuf
    exact ⟨_, hbuf, hstate⟩

theorem channel_step_dev (c c1 : sllin × net_device) (e : channel_event)
    (h : channel_step c e = some c1) : c1.2 = c.2 := by
  cases e with
  | receive cp fp =>
    simp only [channel_step] at h
    split at h
    · cases h
    · cases h; rfl
  | write_wakeup => simp only [channel_step] at h; cases h; rfl
  | thread_start => simp only [channel_step] at h; cases h; rfl
  | thread_wake => simp only [channel_step] at h; cases h; rfl

theorem channel_run_dev (evs : List channel_event) :
    ∀ (c c1 : sllin × net_device), channel_run c evs = some c1 → c1.2 = c.2 := by
  induction evs with
  | nil => intro c c1 h; simp only [channel_run] at h; cases h; rfl
  | cons e es ih =>
    intro c c1 h
    simp only [channel_run] at h
    split at h
    · cases h
    · rename_i c2 hc2
      rw [ih c2 c1 h, channel_step_dev c c2 e hc2]

theorem kwthread_wake_idle (sl : sllin)
    (h : sl.lin_state = SLSTATE_ID_SENT ∨ sl.lin_state = SLSTATE_IDLE) :
    (sllin_kwthread_wake sl).lin_state = SLSTATE_IDLE := by
  rcases h with h | h <;> simp [sllin_kwthread_wake, h]

theorem receive_frame_form (s s2 : sllin) (F : Nat)
    (h : { s2 with rx_buff := s.rx_buff, rx_cnt := s.rx_cnt } = s) :
    { s2 with flags := F } = { s with rx_buff := s2.rx_buff, rx_cnt := s2.rx_cnt, flags := F } := by
  cases s
  cases s2
  simp only [sllin.mk.injEq] at h ⊢
  simp_all

/-- The channel that unmarked characters leave: only `rx_buff`, `rx_cnt` and
    the receive event bit change, and the latter two depend on the number
    of characters only. -/
theorem receive_buf_unmarked_form (sl : sllin) (cp : List Nat) (fp : Option (List Nat))
    (hclear : markers_clear cp fp) (h0 : 0 ≤ sl.rx_cnt) (h1 : sl.rx_cnt ≤ 12) :
    ∃ B : Buff, sllin_receive_buf sl cp fp =
        some { sl with
          rx_buff := B
          rx_cnt := min (sl.rx_cnt + cp.length) 12
          flags := if min (sl.rx_cnt + (cp.length : Int)) 12 ≥ sl.rx_expect then
            set_bit SLF_RXEVENT sl.flags else sl.flags } ∧
      B.1.take (min (sl.rx_cnt + (cp.length : Int)) 12).toNat = (rx_filled sl ++ cp).take 12 := by
  obtain ⟨sl2, e, c1, c2, c3⟩ := receive_loop_unmarked cp sl h0 h1
  have hflags : sl2.flags = sl.flags := by
    have h := congrArg sllin.flags c3
    exact h
  have hexp : sl2.rx_expect = sl.rx_expect := by
    have h := congrArg sllin.rx_expect c3
    exact h
  have hbuf : sllin_receive_buf sl cp fp =
      if sl2.rx_cnt ≥ sl2.rx_expect then
        some { sl2 with flags := set_bit SLF_RXEVENT sl2.flags }
      else some { sl2 with flags := sl2.flags } := by
    simp only [sllin_receive_buf, receive_loop_clear cp sl fp hclear, e]
  refine ⟨sl2.rx_buff, ?_, ?_⟩
  · rw [hbuf, receive_frame_form sl sl2 _ c3, receive_frame_form sl sl2 _ c3, hexp, c1, hflags]
    split <;> rfl
  · have h := c2
    simp only [rx_filled] at h
    rw [c1] at h
    exact h

theorem kwthread_wake_rx_buff (s : sllin) (B : Buff)
    (h : s.lin_state = SLSTATE_ID_SENT ∨ s.lin_state = SLSTATE_IDLE) :
    sllin_kwthread_wake { s with rx_buff := B } =
      { sllin_kwthread_wake s with rx_buff := B } ∧
    (sllin_kwthread_wake s).rx_buff = s.rx_buff ∧
    (sllin_kwthread_wake s).rx_cnt = s.rx_cnt := by
  rcases h with h | h <;> simp [sllin_kwthread_wake, h]

/-- Two unmarked receptions of the same length on the same channel leave
    channels that differ in `rx_buff` only. -/
theorem receive_buf_unmarked_pair (sl : sllin) (cp cp2 : List Nat) (fp fp2 : Option (List Nat))
    (hclear : markers_clear cp fp) (hclear2 : markers_clear cp2 fp2)
    (hlen : cp2.length = cp.length) (h0 : 0 ≤ sl.rx_cnt) (h1 : sl.rx_cnt ≤ 12) :
    ∃ R R2, sllin_receive_buf sl cp fp = some R ∧ sllin_receive_buf sl cp2 fp2 = some R2 ∧
      R2 = { R with rx_buff := R2.rx_buff } ∧ R.lin_state = sl.lin_state ∧
      R.rx_cnt = min (sl.rx_cnt + (cp.length : Int)) 12 ∧
      rx_filled R = (rx_filled sl ++ cp).take 12 := by
  obtain ⟨B, e, hB⟩ := receive_buf_unmarked_form sl cp fp hclear h0 h1
  obtain ⟨B2, e2, _⟩ := receive_buf_unmarked_form sl cp2 fp2 hclear2 h0 h1
  rw [hlen] at e2
  exact ⟨_, _, e, e2, rfl, rfl, rfl, hB⟩

theorem channel_run_receive_wake (sl R : sllin) (dev : net_device) (cp : List Nat)
    (fp : Option (List Nat)) (e : sllin_receive_buf sl cp fp = some R) :
    channel_run (sl, dev) [channel_event.receive cp fp, channel_event.thread_wake] =
      some (sllin_kwthread_wake R, dev) := by
  simp only [channel_run, channel_step, e]

/-- C11, counterexample: the request for identifier 0x10 answered by
    `[0x11, 0x22, 0x33, 0x44, 0xAA]`, whose last byte is the checksum of the
    first four, ends in state IDLE with the five characters in `rx_buff` and
    no frame delivered; `sll_bump` called on that channel delivers nothing
    either. -/
theorem sll_bump_delivers_nothing :
    sllin_csum [0x11, 0x22, 0x33, 0x44] = 0xAA ∧
    run_view (response_run [0x11, 0x22, 0x33, 0x44, 0xAA]) =
      some (SLSTATE_IDLE, [0x00, 0x55, 0x11, 0x22, 0x33, 0x44, 0xAA], []) ∧
    (response_run [0x11, 0x22, 0x33, 0x44, 0xAA]).map
      (fun c => (sll_bump c.1 c.2).2.rx_frames) = some [] ∧
    ([] : List (Int × List Nat)) ≠ [(0x10, [0x11, 0x22, 0x33, 0x44])] :=
  ⟨rfl, rfl, rfl, by decide⟩

/-- C11, amended: for a channel whose header is out (state ID_SENT, or IDLE
    again), the unmarked response characters handed to `sllin_receive_buf`
    are stored in `rx_buff` in arrival order behind the characters already
    there, up to the capacity 12, and `rx_cnt` grows by their number; after
    the next wake of the worker thread the state is IDLE whatever was
    received. No frame is delivered to the network layer, whether or not the
    last byte is the checksum of the others: no checksum is verified (two
    responses of the same length leave channels that differ in `rx_buff`
    only), and neither the engine, nor `sll_bump`, nor any later event hands
    a frame to the device. -/
theorem sllin_response_not_delivered (sl : sllin) (dev : net_device) (resp : List Nat)
    (fp : Option (List Nat))
    (hstate : sl.lin_state = SLSTATE_ID_SENT ∨ sl.lin_state = SLSTATE_IDLE)
    (hclear : markers_clear resp fp) (h0 : 0 ≤ sl.rx_cnt) (h1 : sl.rx_cnt ≤ 12) :
    ∃ c1, channel_run (sl, dev)
        [channel_event.receive resp fp, channel_event.thread_wake] = some c1 ∧
      c1.1.lin_state = SLSTATE_IDLE ∧
      c1.1.rx_cnt = min (sl.rx_cnt + (resp.length : Int)) 12 ∧
      rx_filled c1.1 = (rx_filled sl ++ resp).take 12 ∧
      c1.2 = dev ∧ (sll_bump c1.1 c1.2).2 = dev ∧
      (∀ (evs : List channel_event) (c2 : sllin × net_device),
        channel_run c1 evs = some c2 → c2.2 = dev) ∧
      (∀ (resp2 : List Nat) (fp2 : Option (List Nat)), markers_clear resp2 fp2 →
        resp2.length = resp.length →
        ∃ c2, channel_run (sl, dev)
            [channel_event.receive resp2 fp2, channel_event.thread_wake] = some c2 ∧
          { c2.1 with rx_buff := c1.1.rx_buff } = c1.1 ∧ c2.2 = c1.2) := by
  obtain ⟨R, _, e, _, _, hs, hc, hf⟩ :=
    receive_buf_unmarked_pair sl resp resp fp fp hclear hclear rfl h0 h1
  have hst : R.lin_state = SLSTATE_ID_SENT ∨ R.lin_state = SLSTATE_IDLE := by
    rw [hs]
    exact hstate
  obtain ⟨_, w2, w3⟩ := kwthread_wake_rx_buff R R.rx_buff hst
  refine ⟨(sllin_kwthread_wake R, dev), channel_run_receive_wake sl R dev resp fp e,
    kwthread_wake_idle R hst, ?_, ?_, rfl, rfl, ?_, ?_⟩
  · show (sllin_kwthread_wake R).rx_cnt = _
    rw [w3, hc]
  · show (sllin_kwthread_wake R).rx_buff.1.take (sllin_kwthread_wake R).rx_cnt.toNat = _
    rw [w2, w3]
    exact hf
  · intro evs c2 h
    exact channel_run_dev evs _ c2 h
  · intro resp2 fp2 hclear2 hlen
    obtain ⟨R1, R2, e1, e2, hR2, _⟩ :=
      receive_buf_unmarked_pair sl resp resp2 fp fp2 hclear hclear2 hlen h0 h1
    have hRR : R1 = R := by
      rw [e] at e1
      exact (Option.some.inj e1).symm
    subst hRR
    obtain ⟨v1, _, _⟩ := kwthread_wake_rx_buff R1 R2.rx_buff hst
    refine ⟨(sllin_kwthread_wake R2, dev), channel_run_receive_wake sl R2 dev resp2 fp2 e2,
      ?_, rfl⟩
    show { sllin_kwthread_wake R2 with rx_buff := (sllin_kwthread_wake R1).rx_buff } =
      sllin_kwthread_wake R1
    rw [hR2, v1]

/-- C11, witness: a channel in state ID_SENT that receives
    `[0x11, 0x22, 0x33, 0x44, 0xFF]` holds these five characters, is IDLE
    after the wake and has delivered nothing. -/
theorem sllin_response_not_delivered_witness :
    ∃ c1, channel_run
        ({ sllin_fresh tty_accepts_one with lin_state := SLSTATE_ID_SENT }, dev_empty)
        [channel_event.receive [0x11, 0x22, 0x33, 0x44, 0xFF] none,
         channel_event.thread_wake] = some c1 ∧
      c1.1.lin_state = SLSTATE_IDLE ∧ c1.1.rx_cnt = 5 ∧
      rx_filled c1.1 = [0x11, 0x22, 0x33, 0x44, 0xFF] ∧ c1.2 = dev_empty := by
  obtain ⟨c1, e, hs, hc, hf, hd, _⟩ := sllin_response_not_delivered
    { sllin_fresh tty_accepts_one with lin_state := SLSTATE_ID_SENT } dev_empty
    [0x11, 0x22, 0x33, 0x44, 0xFF] none (Or.inl rfl) trivial (by decide) (by decide)
  exact ⟨c1, e, hs, hc, hf, hd⟩

/-! ## The transmit-drain callback (C12) -/

/-- C12, the code at the failing input: in state ID_SENT with `tx_cnt = 2` of
    `tx_lim = 3` the pending count is 1, and `sllin_write_wakeup` calls the
    tty write with the count `tx_cnt - tx_lim = -1`, which designates no
    byte, instead of offering the one pending byte 0x73; the transmit cursor
    stays at 2. In state BREAK_SENT with `tx_cnt = 0` the pending count is 1
    and the count handed over is -3. -/
theorem sllin_write_wakeup_negative_count :
    (header_written tty_accepts_two).map
      (fun s => (s.lin_state, s.tx_cnt, s.tx_lim, sllin_tx_frame s,
        sllin_write_wakeup_remains s)) =
      some (SLSTATE_ID_SENT, 2, 3, [0x00, 0x55, 0x73], 1) ∧
    (header_written tty_accepts_two).map (fun s => tx_view (sllin_write_wakeup s)) =
      some ([tty_op.change_speed 2400, tty_op.change_speed 1200, tty_op.write [0] 1,
        tty_op.change_speed 2400, tty_op.write [0x55] 1, tty_op.write [] (-1)],
        SLSTATE_ID_SENT, 2, 3) ∧
    sllin_write_wakeup_remains
      { composed_0x33 with lin_state := SLSTATE_BREAK_SENT } = 1 ∧
    (sllin_write_wakeup
      { composed_0x33 with lin_state := SLSTATE_BREAK_SENT }).tty.ops_log =
      [tty_op.write [] (-3)] :=
  ⟨rfl, rfl, rfl, rfl⟩

/-! ## The range of the identifier (C13) -/

/-- C13, the code at the failing input: the identifier -1 is not above 0x3f,
    so `sllin_setup_msg` does not refuse it, and the read
    `sllin_id_parity_table[-1]` lies outside the table. -/
theorem sllin_setup_msg_negative_id :
    ¬ ((-1 : Int) > 0x3f) ∧ parity_lookup (-1) = none ∧
    sllin_setup_msg (sllin_fresh tty_accepts_one) 0 (-1) none 0 = none ∧
    sllin_setup_msg (sllin_fresh tty_accepts_one) 0 (-1) none 0 ≠
      some (-1, sllin_fresh tty_accepts_one) :=
  ⟨by decide, rfl, rfl, by
    have h : sllin_setup_msg (sllin_fresh tty_accepts_one) 0 (-1) none 0 = none := rfl
    rw [h]
    exact fun h2 => Option.noConfusion h2⟩

end Sllin
